import Mathlib

/-!
# Verification of the bloomwatch synthetic-data server (`src/server.js`)

Shallow embedding of the data generator `generateBloomData`, its helpers
`getRandomFloat` / `getRandomInt`, and the `GET /api/bloom-data` request
handler.

Modelling conventions:
* JS numbers are modelled as exact rationals (`ℚ`); `Math.random()` is an
  injected stream of rationals, valid when every value lies in `[0, 1)`.
* The possible `NaN` produced by `new Date(string).getTime()` on an
  unparseable date string is modelled by `Option ℤ` (epoch milliseconds,
  `none` = NaN / Invalid Date).
* A JS exception (the `RangeError` thrown by `toISOString` on an invalid
  date) is modelled by `Except String`.
* `Date` parsing and formatting follow the ECMAScript specification for the
  date-only ISO form `YYYY-MM-DD` (UTC, proleptic Gregorian calendar);
  non-ISO implementation-defined date formats are modelled as unparseable.
-/

/-- The source of randomness behind `Math.random()`: a stream of rationals
together with a cursor.  Each call to `Math.random()` reads the current
value and advances the cursor. -/
structure Rng where
  stream : ℕ → ℚ
  k : ℕ

/-- One call to `Math.random()`. -/
def Rng.next (g : Rng) : ℚ × Rng := (g.stream g.k, ⟨g.stream, g.k + 1⟩)

/-- A random source is valid when, like `Math.random()`, it only produces
values in `[0, 1)`. -/
def ValidRng (g : Rng) : Prop := ∀ i, 0 ≤ g.stream i ∧ g.stream i < 1

/-- `function getRandomFloat(min, max) { return Math.random() * (max - min) + min; }`
(server.js lines 18-20). -/
def getRandomFloat (g : Rng) (min max : ℚ) : ℚ × Rng :=
  let (r, g') := g.next
  (r * (max - min) + min, g')

/-- `function getRandomInt(min, max)` (server.js lines 28-32):
`min = Math.ceil(min); max = Math.floor(max);
return Math.floor(Math.random() * (max - min + 1)) + min;` -/
def getRandomInt (g : Rng) (min max : ℚ) : ℤ × Rng :=
  let minC : ℤ := ⌈min⌉
  let maxF : ℤ := ⌊max⌋
  let (r, g') := g.next
  (⌊r * ((maxF : ℚ) - (minC : ℚ) + 1)⌋ + minC, g')

/-- The integer produced by `getRandomInt` when both (already integral)
bounds are `a` and `b` and the random draw is `r`. -/
def randIntVal (r : ℚ) (a b : ℤ) : ℤ := ⌊r * ((b : ℚ) - (a : ℚ) + 1)⌋ + a

/-- `getRandomInt` lifted to possibly-NaN (`none`) arguments, as at the call
site `getRandomInt(startDate.getTime(), endDate.getTime())` (line 65): a NaN
bound propagates through `Math.ceil` / `Math.floor` / the arithmetic to a NaN
result, while `Math.random()` is still consumed. -/
def getRandomIntOpt (g : Rng) : Option ℤ → Option ℤ → Option ℤ × Rng
  | some a, some b =>
    let (v, g') := getRandomInt g (a : ℚ) (b : ℚ)
    (some v, g')
  | _, _ => (none, g.next.2)

/-- The character for a decimal digit. -/
def digitChar (n : ℕ) : Char := Char.ofNat (48 + n)

/-- The value of a decimal digit character. -/
def digitVal (c : Char) : ℕ := c.toNat - 48

/-- Decimal digit test (the character class `0`-`9` of the ISO date format). -/
def isDigitB (c : Char) : Bool := decide (48 ≤ c.toNat) && decide (c.toNat ≤ 57)

/-- Two-digit zero-padded decimal, as in ISO 8601 month/day fields. -/
def pad2Chars (n : ℕ) : List Char := [digitChar (n / 10 % 10), digitChar (n % 10)]

/-- Four-digit zero-padded decimal, as in ISO 8601 year fields. -/
def pad4Chars (n : ℕ) : List Char :=
  [digitChar (n / 1000 % 10), digitChar (n / 100 % 10),
   digitChar (n / 10 % 10), digitChar (n % 10)]

/-- Six-digit zero-padded decimal, for ECMAScript expanded-year formatting. -/
def pad6Chars (n : ℕ) : List Char :=
  [digitChar (n / 100000 % 10), digitChar (n / 10000 % 10), digitChar (n / 1000 % 10),
   digitChar (n / 100 % 10), digitChar (n / 10 % 10), digitChar (n % 10)]

/-- A proleptic Gregorian calendar date. -/
structure YMD where
  year : ℤ
  month : ℤ
  day : ℤ
  deriving DecidableEq, Repr

/-- Lexicographic (chronological) order on calendar dates. -/
def YMD.lexLt (a b : YMD) : Prop :=
  a.year < b.year ∨
    (a.year = b.year ∧ (a.month < b.month ∨ (a.month = b.month ∧ a.day < b.day)))

/-- The year field as printed by `Date.prototype.toISOString`: four digits for
years `0..9999`, otherwise the ECMAScript expanded `±YYYYYY` form. -/
def yearChars (y : ℤ) : List Char :=
  if y < 0 then '-' :: pad6Chars (-y).toNat
  else if 9999 < y then '+' :: pad6Chars y.toNat
  else pad4Chars y.toNat

/-- The `YYYY-MM-DD` string for a calendar date (the part of the
`toISOString` output before `'T'`, which the generator keeps via
`.split('T')[0]`, line 84). -/
def dateString (t : YMD) : String :=
  ⟨yearChars t.year ++ '-' :: (pad2Chars t.month.toNat ++ '-' :: pad2Chars t.day.toNat)⟩

/-- Gregorian leap-year rule (as in ECMAScript `DaysInYear`). -/
def isLeapYear (y : ℤ) : Bool :=
  decide (y % 4 = 0 ∧ (y % 100 ≠ 0 ∨ y % 400 = 0))

/-- Number of days in a month (ECMAScript `DaysInMonth`). -/
def daysInMonth (y m : ℤ) : ℤ :=
  if m = 2 then (if isLeapYear y then 29 else 28)
  else if m = 4 ∨ m = 6 ∨ m = 9 ∨ m = 11 then 30
  else 31

/-- Days since the epoch 1970-01-01 of a calendar date (the ECMAScript
`MakeDay` computation, via the standard era/day-of-era decomposition; `/` on
`ℤ` rounds toward negative infinity for these positive divisors). -/
def daysFromCivil (t : YMD) : ℤ :=
  let y := if t.month ≤ 2 then t.year - 1 else t.year
  let era := y / 400
  let yoe := y - era * 400
  let mp := if t.month ≤ 2 then t.month + 9 else t.month - 3
  let doy := (153 * mp + 2) / 5 + t.day - 1
  let doe := yoe * 365 + yoe / 4 - yoe / 100 + doy
  era * 146097 + doe - 719468

/-- Days, within a 400-year era starting on March 1 of a year divisible by
400, that precede year-of-era `y` (each March-based year `y` of the era has
365 days plus a leap day exactly when `y + 1` is divisible by 4 and not by
100). -/
def daysInEraBeforeYear (y : ℤ) : ℤ := 365 * y + y / 4 - y / 100

/-- Year of era of a day-of-era count: the largest `y ≤ 399` whose first day
is not after the given day — the ECMAScript `YearFromTime` characterization
("the largest integer y for which `TimeFromYear(y) ≤ t`"). -/
def yoeFromDoe (doe : ℤ) : ℕ :=
  Nat.findGreatest (fun y => daysInEraBeforeYear y ≤ doe) 399

/-- 400-year era of a days-since-epoch count (eras are 146097 days long and
era 0 begins on 0000-03-01, day -719468). -/
def eraOf (z : ℤ) : ℤ := (z + 719468) / 146097

/-- Day of era, in `[0, 146096]`. -/
def doeOf (z : ℤ) : ℤ := (z + 719468) - eraOf z * 146097

/-- Year of era, in `[0, 399]`. -/
def yoeOf (z : ℤ) : ℤ := yoeFromDoe (doeOf z)

/-- Day of the March-based year, in `[0, 365]`. -/
def doyOf (z : ℤ) : ℤ := doeOf z - daysInEraBeforeYear (yoeOf z)

/-- March-based month index in `[0, 11]` (0 = March, ..., 11 = February),
recovered from the day of year. -/
def mpOf (z : ℤ) : ℤ := (5 * doyOf z + 2) / 153

/-- Calendar date of a days-since-epoch count (the ECMAScript
`YearFromTime` / `MonthFromTime` / `DateFromTime` decomposition). -/
def civilFromDays (z : ℤ) : YMD :=
  let mp := mpOf z
  let d := doyOf z - (153 * mp + 2) / 5 + 1
  let m := if mp < 10 then mp + 3 else mp - 9
  ⟨if m ≤ 2 then yoeOf z + eraOf z * 400 + 1 else yoeOf z + eraOf z * 400, m, d⟩

/-- Milliseconds per day. -/
def msPerDay : ℤ := 86400000

/-- Largest time value (in ms) a JS `Date` can hold (ECMAScript `TimeClip`). -/
def maxTimeValue : ℤ := 8640000000000000

/-- `new Date(str).getTime()` (server.js lines 57-58): epoch milliseconds of a
date-only ISO string `YYYY-MM-DD` (interpreted as UTC midnight), `none`
(NaN) when the string does not parse as a valid date. -/
def parseDate (s : String) : Option ℤ :=
  match s.data with
  | [y1, y2, y3, y4, h1, m1, m2, h2, d1, d2] =>
    if isDigitB y1 && isDigitB y2 && isDigitB y3 && isDigitB y4 && (h1 == '-') &&
        isDigitB m1 && isDigitB m2 && (h2 == '-') && isDigitB d1 && isDigitB d2 then
      let y : ℤ := (((digitVal y1 * 10 + digitVal y2) * 10 + digitVal y3) * 10 + digitVal y4 : ℕ)
      let m : ℤ := (digitVal m1 * 10 + digitVal m2 : ℕ)
      let d : ℤ := (digitVal d1 * 10 + digitVal d2 : ℕ)
      if 1 ≤ m ∧ m ≤ 12 ∧ 1 ≤ d ∧ d ≤ daysInMonth y m then
        some (msPerDay * daysFromCivil ⟨y, m, d⟩)
      else none
    else none
  | _ => none

/-- `new Date(randomTimestamp).toISOString().split('T')[0]` (lines 66 and 84).
For a valid time value the `toISOString` output is `<date>T<time>Z` with no
`'T'` inside `<date>`, so `.split('T')[0]` is exactly the calendar-date part
computed here; for an invalid time value (NaN or out of range, ECMAScript
`TimeClip`) `toISOString` throws a `RangeError`. -/
def toISODate (t : Option ℤ) : Except String String :=
  match t with
  | none => .error "RangeError: Invalid time value"
  | some t =>
    if |t| ≤ maxTimeValue then
      .ok (dateString (civilFromDays (t / msPerDay)))
    else .error "RangeError: Invalid time value"

/-- The literal array `["earlier", "stable", "later"]` (line 81). -/
def trends : List String := ["earlier", "stable", "later"]

/-- The literal array `["significant", "moderate", "slight", "no_change"]` (line 82). -/
def predictions : List String := ["significant", "moderate", "slight", "no_change"]

/-- JS array indexing `arr[i]`: `undefined` (`none`) outside the bounds. -/
def jsIndex (l : List String) (i : ℤ) : Option String :=
  if i < 0 then none else l.get? i.toNat

/-- One GeoJSON feature produced by the generator (lines 73-86): geometry
`Point` with `coordinates: [pointLon, pointLat]` and the four properties.
`trend` / `prediction` are `Option` because a JS array read out of bounds
would yield `undefined`. -/
structure Feature where
  lon : ℚ
  lat : ℚ
  intensity : ℚ
  trend : Option String
  prediction : Option String
  date : String
  deriving DecidableEq, Repr

/-- The returned `{ type: "FeatureCollection", features }` object (line 89). -/
structure FeatureCollection where
  features : List Feature
  deriving DecidableEq, Repr

/-- One iteration of the generation loop (lines 60-88). The draws happen in
source order: `pointLat`, `pointLon`, `randomTimestamp`, the intensity draw,
`trend`, `prediction`; the `toISOString` call in the `date` property (line 84)
is the only point that can throw. -/
def mkFeature (g : Rng) (minLat maxLat minLon maxLon : ℚ)
    (startTime endTime : Option ℤ) : Except String (Feature × Rng) :=
  let (pointLat, g1) := getRandomFloat g minLat maxLat
  let (pointLon, g2) := getRandomFloat g1 minLon maxLon
  let (randomTimestamp, g3) := getRandomIntOpt g2 startTime endTime
  let latitudeFactor := (90 - |pointLat|) / 90
  let (r, g4) := g3.next
  let intensity := r * latitudeFactor
  let (trendIdx, g5) := getRandomInt g4 0 2
  let (predIdx, g6) := getRandomInt g5 0 3
  match toISODate randomTimestamp with
  | .error err => .error err
  | .ok date =>
    .ok ({ lon := pointLon, lat := pointLat, intensity := intensity,
           trend := jsIndex trends trendIdx,
           prediction := jsIndex predictions predIdx,
           date := date }, g6)

/-- The `for` loop of `generateBloomData`, pushing one feature per iteration
and propagating the exception, if any. -/
def genFeatures (minLat maxLat minLon maxLon : ℚ) (startTime endTime : Option ℤ) :
    ℕ → Rng → Except String (List Feature × Rng)
  | 0, g => .ok ([], g)
  | n + 1, g =>
    match mkFeature g minLat maxLat minLon maxLon startTime endTime with
    | .error err => .error err
    | .ok (f, g') =>
      match genFeatures minLat maxLat minLon maxLon startTime endTime n g' with
      | .error err => .error err
      | .ok (fs, g'') => .ok (f :: fs, g'')

/-- `function generateBloomData(lat, lon, radius, startDateStr, endDateStr)`
(server.js lines 46-90). -/
def generateBloomData (g : Rng) (lat lon radius : ℚ)
    (startDateStr endDateStr : String) : Except String FeatureCollection :=
  let (numberOfPoints, g1) := getRandomInt g 150 350
  let minLat := lat - radius
  let maxLat := lat + radius
  let minLon := lon - radius
  let maxLon := lon + radius
  let startTime := parseDate startDateStr
  let endTime := parseDate endDateStr
  match genFeatures minLat maxLat minLon maxLon startTime endTime numberOfPoints.toNat g1 with
  | .error err => .error err
  | .ok (fs, _) => .ok ⟨fs⟩

/-- The features of a non-throwing generator result (for stating
per-observation properties uniformly). -/
def featuresOf (r : Except String FeatureCollection) : List Feature :=
  match r with
  | .ok fc => fc.features
  | .error _ => []

/-- The missing-parameter error body (server.js line 102). -/
def missingMsg : String :=
  "Missing required query parameters. Required: lat, lon, radius, startDate, endDate."

/-- The invalid-number error body (server.js line 112). -/
def invalidGeoMsg : String :=
  "Invalid geographic parameters. lat, lon, and radius must be numbers."

/-- The query parameters of a request to `GET /api/bloom-data`: each is
`none` when absent from the query string, `some` of its raw string value
when present. -/
structure Query where
  lat : Option String
  lon : Option String
  radius : Option String
  startDate : Option String
  endDate : Option String

/-- A JSON response body: either an error object `{"error": msg}` or the
serialized feature collection. -/
inductive Body where
  | err (msg : String)
  | json (fc : FeatureCollection)
  deriving DecidableEq

/-- JS truthiness of a possibly-absent query-string value: `undefined` and
`""` are falsy, every other string is truthy. -/
def truthy : Option String → Bool
  | none => false
  | some s => !(s == "")

/-- The `app.get("/api/bloom-data")` handler (server.js lines 95-125),
parameterized by the `parseFloat` oracle (`none` = NaN) and the random
source.  The result is the `(status, body)` response, or `.error` when the
generator throws and the exception escapes to the framework. -/
def handleBloomData (g : Rng) (parseFloatFn : String → Option ℚ) (q : Query) :
    Except String (ℕ × Body) :=
  if !truthy q.lat || !truthy q.lon || !truthy q.radius ||
      !truthy q.startDate || !truthy q.endDate then
    .ok (400, .err missingMsg)
  else
    match parseFloatFn (q.lat.getD ""), parseFloatFn (q.lon.getD ""),
        parseFloatFn (q.radius.getD "") with
    | some latNum, some lonNum, some radiusNum =>
      match generateBloomData g latNum lonNum radiusNum
          (q.startDate.getD "") (q.endDate.getD "") with
      | .error err => .error err
      | .ok data => .ok (200, .json data)
    | _, _, _ => .ok (400, .err invalidGeoMsg)

/-- The all-zeroes random source (a valid `Math.random` model). -/
def zeroRng : Rng := ⟨fun _ => 0, 0⟩

/-- The feature that every iteration of the generation loop produces under
the all-zeroes random source, for a bounding box with lower corner
`(mla, mlo)` and a start date falling on day `zd`. -/
def zeroRunFeature (mla mlo : ℚ) (zd : ℤ) : Feature :=
  { lon := mlo, lat := mla, intensity := 0,
    trend := some "earlier", prediction := some "significant",
    date := dateString (civilFromDays zd) }

/-! ## Calendar correctness lemmas -/

theorem dieb_mono {a b : ℤ} (h : a ≤ b) : daysInEraBeforeYear a ≤ daysInEraBeforeYear b := by
  unfold daysInEraBeforeYear
  omega

theorem dieb_strictMono {a b : ℤ} (h0 : 0 ≤ a) (h : a < b) :
    daysInEraBeforeYear a < daysInEraBeforeYear b := by
  unfold daysInEraBeforeYear
  omega

theorem doeOf_bounds (z : ℤ) : 0 ≤ doeOf z ∧ doeOf z ≤ 146096 := by
  unfold doeOf eraOf
  omega

theorem yoeFromDoe_le (doe : ℤ) : yoeFromDoe doe ≤ 399 := Nat.findGreatest_le 399

theorem yoeFromDoe_spec {doe : ℤ} (h0 : 0 ≤ doe) :
    daysInEraBeforeYear (yoeFromDoe doe) ≤ doe := by
  have h : daysInEraBeforeYear ((0 : ℕ) : ℤ) ≤ doe := by
    unfold daysInEraBeforeYear
    omega
  exact @Nat.findGreatest_spec 0 (fun y => daysInEraBeforeYear y ≤ doe) _ 399
    (Nat.zero_le 399) h

theorem yoeFromDoe_upper {doe : ℤ} (h : yoeFromDoe doe < 399) :
    doe < daysInEraBeforeYear ((yoeFromDoe doe : ℤ) + 1) := by
  have h2 := @Nat.findGreatest_is_greatest (yoeFromDoe doe + 1)
    (fun y => daysInEraBeforeYear y ≤ doe) _ 399 (Nat.lt_succ_self _) h
  push_cast at h2 ⊢
  omega

theorem le_yoeFromDoe {doe : ℤ} {k : ℕ} (hk : k ≤ 399)
    (h : daysInEraBeforeYear (k : ℤ) ≤ doe) : k ≤ yoeFromDoe doe :=
  Nat.le_findGreatest hk h

theorem yoeFromDoe_eq {doe : ℤ} {yoe : ℕ} (h2 : yoe ≤ 399)
    (h3 : daysInEraBeforeYear (yoe : ℤ) ≤ doe)
    (h4 : yoe = 399 ∨ doe < daysInEraBeforeYear ((yoe : ℤ) + 1)) :
    yoeFromDoe doe = yoe := by
  have hge : yoe ≤ yoeFromDoe doe := le_yoeFromDoe h2 h3
  rcases h4 with h4 | h4
  · have := yoeFromDoe_le doe
    omega
  · by_contra hne
    have hlt : yoe < yoeFromDoe doe := lt_of_le_of_ne hge (Ne.symm hne)
    have hs := yoeFromDoe_spec (le_trans (by unfold daysInEraBeforeYear; omega) h3)
    have hmono : daysInEraBeforeYear ((yoe : ℤ) + 1) ≤ daysInEraBeforeYear (yoeFromDoe doe) := by
      apply dieb_mono
      push_cast
      omega
    omega

theorem yoeOf_bounds (z : ℤ) : 0 ≤ yoeOf z ∧ yoeOf z ≤ 399 := by
  unfold yoeOf
  have := yoeFromDoe_le (doeOf z)
  omega

theorem doyOf_nonneg (z : ℤ) : 0 ≤ doyOf z := by
  unfold doyOf yoeOf
  have h := yoeFromDoe_spec (doeOf_bounds z).1
  omega

theorem doyOf_le (z : ℤ) : doyOf z ≤ 365 := by
  unfold doyOf yoeOf
  have hdoe := doeOf_bounds z
  by_cases h399 : yoeFromDoe (doeOf z) = 399
  · rw [h399]
    unfold daysInEraBeforeYear
    omega
  · have hlt : yoeFromDoe (doeOf z) < 399 := lt_of_le_of_ne (yoeFromDoe_le _) h399
    have hup := yoeFromDoe_upper hlt
    unfold daysInEraBeforeYear at hup ⊢
    omega

theorem mpOf_bounds (z : ℤ) : 0 ≤ mpOf z ∧ mpOf z ≤ 11 := by
  unfold mpOf
  have h1 := doyOf_nonneg z
  have h2 := doyOf_le z
  omega

theorem civil_month_day_bounds (z : ℤ) :
    1 ≤ (civilFromDays z).month ∧ (civilFromDays z).month ≤ 12 ∧
    1 ≤ (civilFromDays z).day ∧ (civilFromDays z).day ≤ 31 := by
  have h1 := doyOf_nonneg z
  have h2 := doyOf_le z
  have h3 := mpOf_bounds z
  simp only [civilFromDays]
  unfold mpOf at h3 ⊢
  split_ifs <;> simp_all <;> omega

theorem dieb_growth (a : ℤ) :
    daysInEraBeforeYear a + 365 ≤ daysInEraBeforeYear (a + 1) ∧
    daysInEraBeforeYear (a + 1) ≤ daysInEraBeforeYear a + 366 := by
  unfold daysInEraBeforeYear
  omega

theorem yoeFromDoe_mono {d1 d2 : ℤ} (h : d1 ≤ d2) : yoeFromDoe d1 ≤ yoeFromDoe d2 := by
  apply Nat.findGreatest_mono
  · intro y hy
    exact le_trans hy h
  · exact le_refl 399

theorem yoeFromDoe_succ {doe : ℤ} (h0 : 0 ≤ doe) :
    yoeFromDoe (doe + 1) = yoeFromDoe doe ∨
      (yoeFromDoe (doe + 1) = yoeFromDoe doe + 1 ∧
        doe + 1 = daysInEraBeforeYear ((yoeFromDoe doe : ℤ) + 1)) := by
  have hmono : yoeFromDoe doe ≤ yoeFromDoe (doe + 1) := yoeFromDoe_mono (by omega)
  rcases Nat.lt_or_ge (yoeFromDoe doe) (yoeFromDoe (doe + 1)) with hlt | hge
  · by_cases h399 : yoeFromDoe doe = 399
    · have := yoeFromDoe_le (doe + 1)
      omega
    · have hup : doe < daysInEraBeforeYear ((yoeFromDoe doe : ℤ) + 1) :=
        yoeFromDoe_upper (lt_of_le_of_ne (yoeFromDoe_le doe) h399)
      have hspec' : daysInEraBeforeYear (yoeFromDoe (doe + 1)) ≤ doe + 1 :=
        yoeFromDoe_spec (by omega)
      have hm1 : daysInEraBeforeYear ((yoeFromDoe doe : ℤ) + 1) ≤
          daysInEraBeforeYear (yoeFromDoe (doe + 1)) := by
        apply dieb_mono
        push_cast
        omega
      right
      by_cases h2 : yoeFromDoe (doe + 1) = yoeFromDoe doe + 1
      · refine ⟨h2, by omega⟩
      · exfalso
        have hg2 : (yoeFromDoe doe : ℤ) + 2 ≤ (yoeFromDoe (doe + 1) : ℤ) := by
          push_cast at *
          omega
        have := dieb_growth ((yoeFromDoe doe : ℤ) + 1)
        have hm2 : daysInEraBeforeYear ((yoeFromDoe doe : ℤ) + 1 + 1) ≤
            daysInEraBeforeYear (yoeFromDoe (doe + 1)) := dieb_mono (by omega)
        omega
  · left
    omega

theorem yoeOf_eq_399 {z : ℤ} (h : 145731 ≤ doeOf z) : yoeOf z = 399 := by
  unfold yoeOf
  have h399 : daysInEraBeforeYear ((399 : ℕ) : ℤ) ≤ doeOf z := by
    unfold daysInEraBeforeYear
    push_cast
    omega
  have h1 := le_yoeFromDoe (le_refl 399) h399
  have h2 := yoeFromDoe_le (doeOf z)
  omega

theorem yoeOf_eq_zero {z : ℤ} (h : doeOf z = 0) : yoeOf z = 0 := by
  unfold yoeOf
  rw [h]
  have h1 : daysInEraBeforeYear ((0 : ℕ) : ℤ) ≤ 0 := by
    unfold daysInEraBeforeYear
    omega
  have h2 : (0 : ℤ) < daysInEraBeforeYear ((0 : ℤ) + 1) := by
    unfold daysInEraBeforeYear
    omega
  have := @yoeFromDoe_eq 0 0 (by omega) h1 (Or.inr (by push_cast at h2 ⊢; omega))
  omega

theorem civil_step (z : ℤ) : YMD.lexLt (civilFromDays z) (civilFromDays (z + 1)) := by
  have hdoe := doeOf_bounds z
  have hdoe' := doeOf_bounds (z + 1)
  have hyb := yoeOf_bounds z
  have hyb' := yoeOf_bounds (z + 1)
  have hdoy1 := doyOf_nonneg z
  have hdoy2 := doyOf_le z
  have hdoy1' := doyOf_nonneg (z + 1)
  have hdoy2' := doyOf_le (z + 1)
  by_cases hroll : doeOf z = 146096
  · -- rollover to the next era
    have hera : eraOf (z + 1) = eraOf z + 1 ∧ doeOf (z + 1) = 0 := by
      unfold doeOf eraOf at hroll ⊢
      omega
    have hyoe : yoeOf z = 399 := yoeOf_eq_399 (by omega)
    have hyoe' : yoeOf (z + 1) = 0 := yoeOf_eq_zero hera.2
    simp only [civilFromDays, YMD.lexLt, mpOf, doyOf]
    rw [hyoe, hyoe', hera.1, hera.2, hroll]
    unfold daysInEraBeforeYear
    split_ifs <;> omega
  · -- same era
    have hera : eraOf (z + 1) = eraOf z ∧ doeOf (z + 1) = doeOf z + 1 := by
      unfold doeOf eraOf at hroll ⊢
      omega
    have hsucc := @yoeFromDoe_succ (doeOf z) (by omega)
    have hcast : yoeOf (z + 1) = yoeOf z ∨
        (yoeOf (z + 1) = yoeOf z + 1 ∧
          doeOf z + 1 = daysInEraBeforeYear (yoeOf z + 1)) := by
      unfold yoeOf
      rw [hera.2]
      rcases hsucc with h | ⟨h1, h2⟩
      · left
        rw [h]
      · right
        constructor
        · rw [h1]
          push_cast
          ring
        · push_cast at h2 ⊢
          convert h2 using 3
    rcases hcast with hy | ⟨hy, hstart⟩
    · -- same year of era: the day of year increments
      have hdoy : doyOf (z + 1) = doyOf z + 1 := by
        unfold doyOf
        rw [hy, hera.2]
        omega
      simp only [civilFromDays, YMD.lexLt, mpOf]
      rw [hdoy, hy, hera.1]
      split_ifs <;> omega
    · -- new year of era begins
      have hdoy' : doyOf (z + 1) = 0 := by
        unfold doyOf
        rw [hy, hera.2, hstart]
        ring
      have hdoy365 : doyOf z = daysInEraBeforeYear (yoeOf z + 1) - 1 - daysInEraBeforeYear (yoeOf z) := by
        unfold doyOf
        omega
      have hg := dieb_growth (yoeOf z)
      simp only [civilFromDays, YMD.lexLt, mpOf]
      rw [hdoy', hy, hera.1, hdoy365]
      have h364 : 364 ≤ daysInEraBeforeYear (yoeOf z + 1) - 1 - daysInEraBeforeYear (yoeOf z) := by
        omega
      have h365 : daysInEraBeforeYear (yoeOf z + 1) - 1 - daysInEraBeforeYear (yoeOf z) ≤ 365 := by
        omega
      split_ifs <;> omega

theorem lexLt_trans {a b c : YMD} (h1 : YMD.lexLt a b) (h2 : YMD.lexLt b c) :
    YMD.lexLt a c := by
  unfold YMD.lexLt at *
  omega

theorem civil_lt {z1 z2 : ℤ} (h : z1 < z2) :
    YMD.lexLt (civilFromDays z1) (civilFromDays z2) := by
  have key : ∀ n, z1 + 1 ≤ n → YMD.lexLt (civilFromDays z1) (civilFromDays n) := by
    apply Int.le_induction
    · exact civil_step z1
    · intro n _ hP
      exact lexLt_trans hP (civil_step n)
  exact key z2 (by omega)

theorem civil_year_bounds (z : ℤ) (h1 : -719528 ≤ z) (h2 : z ≤ 2932896) :
    0 ≤ (civilFromDays z).year ∧ (civilFromDays z).year ≤ 9999 := by
  have hdoe := doeOf_bounds z
  have hyb := yoeOf_bounds z
  have hdoy1 := doyOf_nonneg z
  have hdoy2 := doyOf_le z
  have hmp := mpOf_bounds z
  by_cases hera : eraOf z = -1
  · have h399 : yoeOf z = 399 := yoeOf_eq_399 (by
      unfold doeOf
      rw [hera]
      unfold eraOf at hera
      omega)
    simp only [civilFromDays, mpOf, doyOf] at *
    unfold doeOf eraOf daysInEraBeforeYear at *
    split_ifs <;> omega
  · simp only [civilFromDays, mpOf, doyOf] at *
    unfold doeOf eraOf daysInEraBeforeYear at *
    split_ifs <;> omega

theorem yoeFromDoe_eqZ {doe yoe : ℤ} (h1 : 0 ≤ yoe) (h2 : yoe ≤ 399)
    (h3 : daysInEraBeforeYear yoe ≤ doe)
    (h4 : yoe = 399 ∨ doe < daysInEraBeforeYear (yoe + 1)) :
    (yoeFromDoe doe : ℤ) = yoe := by
  have hcast : ((yoe.toNat : ℤ)) = yoe := Int.toNat_of_nonneg h1
  have h2' : yoe.toNat ≤ 399 := by omega
  have h3' : daysInEraBeforeYear (yoe.toNat : ℤ) ≤ doe := by rw [hcast]; exact h3
  have h4' : yoe.toNat = 399 ∨ doe < daysInEraBeforeYear ((yoe.toNat : ℤ) + 1) := by
    rcases h4 with h | h
    · left
      omega
    · right
      rw [hcast]
      exact h
  have := yoeFromDoe_eq h2' h3' h4'
  omega

theorem mp_recover (mp d : ℤ) (h1 : 0 ≤ mp) (h2 : mp ≤ 11) (h3 : 1 ≤ d) (h4 : d ≤ 31)
    (h5 : (mp = 1 ∨ mp = 3 ∨ mp = 6 ∨ mp = 8 ∨ mp = 11) → d ≤ 30) :
    (5 * ((153 * mp + 2) / 5 + d - 1) + 2) / 153 = mp := by
  interval_cases mp <;> omega

theorem civil_days_roundtrip (y m d : ℤ) (h1 : 1 ≤ m) (h2 : m ≤ 12)
    (h3 : 1 ≤ d) (h4 : d ≤ daysInMonth y m) :
    civilFromDays (daysFromCivil ⟨y, m, d⟩) = ⟨y, m, d⟩ := by
  have hleap : (isLeapYear y = true) ↔ (y % 4 = 0 ∧ (y % 100 ≠ 0 ∨ y % 400 = 0)) := by
    simp [isLeapYear]
  have hdim : (m = 2 → ((y % 4 = 0 ∧ (y % 100 ≠ 0 ∨ y % 400 = 0)) ∧ d ≤ 29 ∨
        (¬(y % 4 = 0 ∧ (y % 100 ≠ 0 ∨ y % 400 = 0)) ∧ d ≤ 28))) ∧
      ((m = 4 ∨ m = 6 ∨ m = 9 ∨ m = 11) → d ≤ 30) ∧ d ≤ 31 := by
    unfold daysInMonth at h4
    split_ifs at h4 with hA hB hC
    · exact ⟨fun _ => Or.inl ⟨hleap.mp hB, h4⟩, fun hm => by omega, by omega⟩
    · have hnl : ¬(y % 4 = 0 ∧ (y % 100 ≠ 0 ∨ y % 400 = 0)) := fun hc => hB (hleap.mpr hc)
      exact ⟨fun _ => Or.inr ⟨hnl, h4⟩, fun hm => by omega, by omega⟩
    · exact ⟨fun hm => by omega, fun _ => h4, by omega⟩
    · exact ⟨fun hm => by omega, fun hm => by omega, h4⟩
  by_cases hm2 : m ≤ 2
  · -- January / February: the shifted year is y - 1
    have hz : daysFromCivil ⟨y, m, d⟩ =
        (y - 1) / 400 * 146097 +
          (daysInEraBeforeYear (y - 1 - (y - 1) / 400 * 400) +
            ((153 * (m + 9) + 2) / 5 + d - 1)) - 719468 := by
      simp only [daysFromCivil, daysInEraBeforeYear]
      rw [if_pos hm2]
      ring_nf
      omega
    have hyoe0 : 0 ≤ y - 1 - (y - 1) / 400 * 400 ∧ y - 1 - (y - 1) / 400 * 400 ≤ 399 := by
      omega
    have hdoy0 : 0 ≤ (153 * (m + 9) + 2) / 5 + d - 1 ∧
        (153 * (m + 9) + 2) / 5 + d - 1 ≤ 365 := by
      have := hdim.1
      have := hdim.2.2
      omega
    have hera : eraOf (daysFromCivil ⟨y, m, d⟩) = (y - 1) / 400 ∧
        doeOf (daysFromCivil ⟨y, m, d⟩) =
          daysInEraBeforeYear (y - 1 - (y - 1) / 400 * 400) +
            ((153 * (m + 9) + 2) / 5 + d - 1) := by
      rw [hz]
      simp only [doeOf, eraOf, daysInEraBeforeYear]
      constructor <;> omega
    have hyoe : yoeOf (daysFromCivil ⟨y, m, d⟩) = y - 1 - (y - 1) / 400 * 400 := by
      unfold yoeOf
      rw [hera.2]
      apply yoeFromDoe_eqZ hyoe0.1 hyoe0.2
      · unfold daysInEraBeforeYear
        omega
      · by_cases h399 : y - 1 - (y - 1) / 400 * 400 = 399
        · exact Or.inl h399
        · right
          have := hdim.1
          unfold daysInEraBeforeYear
          omega
    have hdoy : doyOf (daysFromCivil ⟨y, m, d⟩) = (153 * (m + 9) + 2) / 5 + d - 1 := by
      unfold doyOf
      rw [hera.2, hyoe]
      ring
    have hmp' : (5 * ((153 * (m + 9) + 2) / 5 + d - 1) + 2) / 153 = m + 9 := by
      apply mp_recover (m + 9) d (by omega) (by omega) h3 hdim.2.2
      intro hset
      have hfeb := hdim.1
      rcases hfeb (by omega) with ⟨_, hd29⟩ | ⟨_, hd28⟩ <;> omega
    simp only [civilFromDays, mpOf, YMD.mk.injEq]
    rw [hdoy, hyoe, hera.1, hmp']
    refine ⟨?_, ?_, ?_⟩
    · split_ifs <;> omega
    · split_ifs <;> omega
    · omega
  · -- March .. December: the shifted year is y itself
    have hz : daysFromCivil ⟨y, m, d⟩ =
        y / 400 * 146097 +
          (daysInEraBeforeYear (y - y / 400 * 400) +
            ((153 * (m - 3) + 2) / 5 + d - 1)) - 719468 := by
      simp only [daysFromCivil, daysInEraBeforeYear]
      rw [if_neg hm2]
      ring_nf
      omega
    have hyoe0 : 0 ≤ y - y / 400 * 400 ∧ y - y / 400 * 400 ≤ 399 := by
      omega
    have hdoy0 : 0 ≤ (153 * (m - 3) + 2) / 5 + d - 1 ∧
        (153 * (m - 3) + 2) / 5 + d - 1 ≤ 365 := by
      have := hdim.2.2
      omega
    have hera : eraOf (daysFromCivil ⟨y, m, d⟩) = y / 400 ∧
        doeOf (daysFromCivil ⟨y, m, d⟩) =
          daysInEraBeforeYear (y - y / 400 * 400) +
            ((153 * (m - 3) + 2) / 5 + d - 1) := by
      rw [hz]
      simp only [doeOf, eraOf, daysInEraBeforeYear]
      constructor <;> omega
    have hyoe : yoeOf (daysFromCivil ⟨y, m, d⟩) = y - y / 400 * 400 := by
      unfold yoeOf
      rw [hera.2]
      apply yoeFromDoe_eqZ hyoe0.1 hyoe0.2
      · unfold daysInEraBeforeYear
        omega
      · by_cases h399 : y - y / 400 * 400 = 399
        · exact Or.inl h399
        · right
          have := hdim.2.2
          unfold daysInEraBeforeYear
          omega
    have hdoy : doyOf (daysFromCivil ⟨y, m, d⟩) = (153 * (m - 3) + 2) / 5 + d - 1 := by
      unfold doyOf
      rw [hera.2, hyoe]
      ring
    have hmp' : (5 * ((153 * (m - 3) + 2) / 5 + d - 1) + 2) / 153 = m - 3 := by
      apply mp_recover (m - 3) d (by omega) (by omega) h3 hdim.2.2
      intro hset
      exact hdim.2.1 (by omega)
    simp only [civilFromDays, mpOf, YMD.mk.injEq]
    rw [hdoy, hyoe, hera.1, hmp']
    refine ⟨?_, ?_, ?_⟩
    · split_ifs <;> omega
    · split_ifs <;> omega
    · omega

theorem daysInMonth_le (y m : ℤ) : daysInMonth y m ≤ 31 := by
  unfold daysInMonth
  split_ifs <;> omega

theorem daysInMonth_pos (y m : ℤ) : 1 ≤ daysInMonth y m := by
  unfold daysInMonth
  split_ifs <;> omega

theorem daysFromCivil_range (y m d : ℤ) (hy1 : 0 ≤ y) (hy2 : y ≤ 9999)
    (h1 : 1 ≤ m) (h2 : m ≤ 12) (h3 : 1 ≤ d) (h4 : d ≤ 31) :
    -719528 ≤ daysFromCivil ⟨y, m, d⟩ ∧ daysFromCivil ⟨y, m, d⟩ ≤ 2932896 := by
  simp only [daysFromCivil]
  split_ifs <;> constructor <;> omega

theorem digitChar_mono : ∀ a < 10, ∀ b < 10, a < b → digitChar a < digitChar b := by
  decide

theorem listLex_append {t1 t2 : List Char} {l1 l2 : List Char}
    (h : List.Lex (fun a b => a < b) l1 l2) :
    l1.length = l2.length → List.Lex (fun a b => a < b) (l1 ++ t1) (l2 ++ t2) := by
  induction h with
  | nil =>
    intro hlen
    simp at hlen
  | cons h ih =>
    intro hlen
    exact List.Lex.cons (ih (by simpa using hlen))
  | rel h =>
    intro _
    exact List.Lex.rel h

theorem listLex_append_left : ∀ (l : List Char) {t1 t2 : List Char},
    List.Lex (fun a b => a < b) t1 t2 →
    List.Lex (fun a b => a < b) (l ++ t1) (l ++ t2) := by
  intro l
  induction l with
  | nil =>
    intro t1 t2 h
    exact h
  | cons c cs ih =>
    intro t1 t2 h
    exact List.Lex.cons (ih h)

theorem pad2_lt {a b : ℕ} (ha : a ≤ 99) (hb : b ≤ 99) (h : a < b) :
    List.Lex (fun a b => a < b) (pad2Chars a) (pad2Chars b) := by
  have hd : a / 10 % 10 < b / 10 % 10 ∨
      (a / 10 % 10 = b / 10 % 10 ∧ a % 10 < b % 10) := by omega
  unfold pad2Chars
  rcases hd with h1 | ⟨e1, h1⟩
  · exact List.Lex.rel (digitChar_mono _ (by omega) _ (by omega) h1)
  · rw [e1]
    exact List.Lex.cons (List.Lex.rel (digitChar_mono _ (by omega) _ (by omega) h1))

theorem pad4_lt {a b : ℕ} (ha : a ≤ 9999) (hb : b ≤ 9999) (h : a < b) :
    List.Lex (fun a b => a < b) (pad4Chars a) (pad4Chars b) := by
  have ha4 : a = 1000 * (a / 1000 % 10) + 100 * (a / 100 % 10) + 10 * (a / 10 % 10) + a % 10 := by
    omega
  have hb4 : b = 1000 * (b / 1000 % 10) + 100 * (b / 100 % 10) + 10 * (b / 10 % 10) + b % 10 := by
    omega
  have hd : a / 1000 % 10 < b / 1000 % 10 ∨
      (a / 1000 % 10 = b / 1000 % 10 ∧ (a / 100 % 10 < b / 100 % 10 ∨
        (a / 100 % 10 = b / 100 % 10 ∧ (a / 10 % 10 < b / 10 % 10 ∨
          (a / 10 % 10 = b / 10 % 10 ∧ a % 10 < b % 10))))) := by omega
  unfold pad4Chars
  rcases hd with h1 | ⟨e1, h1 | ⟨e2, h1 | ⟨e3, h1⟩⟩⟩
  · exact List.Lex.rel (digitChar_mono _ (by omega) _ (by omega) h1)
  · rw [e1]
    exact List.Lex.cons (List.Lex.rel (digitChar_mono _ (by omega) _ (by omega) h1))
  · rw [e1, e2]
    exact List.Lex.cons (List.Lex.cons
      (List.Lex.rel (digitChar_mono _ (by omega) _ (by omega) h1)))
  · rw [e1, e2, e3]
    exact List.Lex.cons (List.Lex.cons (List.Lex.cons
      (List.Lex.rel (digitChar_mono _ (by omega) _ (by omega) h1))))

theorem yearChars_eq_pad4 {y : ℤ} (h1 : 0 ≤ y) (h2 : y ≤ 9999) :
    yearChars y = pad4Chars y.toNat := by
  unfold yearChars
  rw [if_neg (by omega), if_neg (by omega)]

theorem dateString_lt {t u : YMD}
    (ht : 0 ≤ t.year ∧ t.year ≤ 9999 ∧ 1 ≤ t.month ∧ t.month ≤ 12 ∧ 1 ≤ t.day ∧ t.day ≤ 31)
    (hu : 0 ≤ u.year ∧ u.year ≤ 9999 ∧ 1 ≤ u.month ∧ u.month ≤ 12 ∧ 1 ≤ u.day ∧ u.day ≤ 31)
    (h : YMD.lexLt t u) : dateString t < dateString u := by
  obtain ⟨hty1, hty2, htm1, htm2, htd1, htd2⟩ := ht
  obtain ⟨huy1, huy2, hum1, hum2, hud1, hud2⟩ := hu
  rw [String.lt_iff_toList_lt]
  show List.Lex (fun a b => a < b)
    (yearChars t.year ++ '-' :: (pad2Chars t.month.toNat ++ '-' :: pad2Chars t.day.toNat))
    (yearChars u.year ++ '-' :: (pad2Chars u.month.toNat ++ '-' :: pad2Chars u.day.toNat))
  rw [yearChars_eq_pad4 hty1 hty2, yearChars_eq_pad4 huy1 huy2]
  rcases h with hy | ⟨hy, hm | ⟨hm, hd⟩⟩
  · exact listLex_append (pad4_lt (by omega) (by omega) (by omega)) (by simp [pad4Chars])
  · rw [hy]
    apply listLex_append_left
    apply List.Lex.cons
    exact listLex_append (pad2_lt (by omega) (by omega) (by omega)) (by simp [pad2Chars])
  · rw [hy, hm]
    apply listLex_append_left
    apply List.Lex.cons
    apply listLex_append_left
    apply List.Lex.cons
    exact pad2_lt (by omega) (by omega) (by omega)

theorem civil_in_bounds {z : ℤ} (h1 : -719528 ≤ z) (h2 : z ≤ 2932896) :
    0 ≤ (civilFromDays z).year ∧ (civilFromDays z).year ≤ 9999 ∧
    1 ≤ (civilFromDays z).month ∧ (civilFromDays z).month ≤ 12 ∧
    1 ≤ (civilFromDays z).day ∧ (civilFromDays z).day ≤ 31 := by
  have ha := civil_year_bounds z h1 h2
  have hb := civil_month_day_bounds z
  exact ⟨ha.1, ha.2, hb.1, hb.2.1, hb.2.2.1, hb.2.2.2⟩

theorem dateString_lt_of_civil {z1 z2 : ℤ} (h1 : -719528 ≤ z1) (h12 : z1 < z2)
    (h2 : z2 ≤ 2932896) :
    dateString (civilFromDays z1) < dateString (civilFromDays z2) :=
  dateString_lt (civil_in_bounds h1 (by omega)) (civil_in_bounds (by omega) h2)
    (civil_lt h12)

theorem dateString_le_of_civil {z1 z2 : ℤ} (h1 : -719528 ≤ z1) (h12 : z1 ≤ z2)
    (h2 : z2 ≤ 2932896) :
    dateString (civilFromDays z1) ≤ dateString (civilFromDays z2) := by
  rcases eq_or_lt_of_le h12 with he | hlt
  · rw [he]
  · exact le_of_lt (dateString_lt_of_civil h1 hlt h2)

theorem isDigitB_bounds {c : Char} (h : isDigitB c = true) :
    48 ≤ c.toNat ∧ c.toNat ≤ 57 := by
  unfold isDigitB at h
  simp at h
  exact h

theorem digitVal_le {c : Char} (h : isDigitB c = true) : digitVal c ≤ 9 := by
  have := isDigitB_bounds h
  unfold digitVal
  omega

theorem digitChar_digitVal {c : Char} (h : isDigitB c = true) : digitChar (digitVal c) = c := by
  have hb := isDigitB_bounds h
  unfold digitChar digitVal
  have he : 48 + (c.toNat - 48) = c.toNat := by omega
  rw [he]
  exact Char.ofNat_toNat c

theorem parseDate_some {s : String} {ts : ℤ} (h : parseDate s = some ts) :
    ∃ y m d : ℤ, 0 ≤ y ∧ y ≤ 9999 ∧ 1 ≤ m ∧ m ≤ 12 ∧ 1 ≤ d ∧ d ≤ daysInMonth y m ∧
      ts = msPerDay * daysFromCivil ⟨y, m, d⟩ ∧ s = dateString ⟨y, m, d⟩ := by
  simp only [parseDate] at h
  split at h
  · rename_i y1 y2 y3 y4 c1 m1 m2 c2 d1 d2 heq
    split at h
    · rename_i hdig
      split at h
      · rename_i hval
        simp only [Bool.and_eq_true, beq_iff_eq] at hdig
        obtain ⟨⟨⟨⟨⟨⟨⟨⟨⟨hy1, hy2⟩, hy3⟩, hy4⟩, hc1⟩, hm1⟩, hm2⟩, hc2⟩, hd1⟩, hd2⟩ := hdig
        have hv1 := digitVal_le hy1
        have hv2 := digitVal_le hy2
        have hv3 := digitVal_le hy3
        have hv4 := digitVal_le hy4
        have hv5 := digitVal_le hm1
        have hv6 := digitVal_le hm2
        have hv7 := digitVal_le hd1
        have hv8 := digitVal_le hd2
        obtain ⟨hval1, hval2, hval3, hval4⟩ := hval
        refine ⟨_, _, _, by positivity, by push_cast; omega, hval1, hval2, hval3, hval4,
          (Option.some.inj h).symm, ?_⟩
        apply String.ext
        rw [heq]
        show _ = yearChars _ ++ '-' :: (pad2Chars _ ++ '-' :: pad2Chars _)
        rw [yearChars_eq_pad4 (by positivity) (by push_cast; omega)]
        rw [Int.toNat_natCast, Int.toNat_natCast, Int.toNat_natCast]
        unfold pad4Chars pad2Chars
        have e1 : (((digitVal y1 * 10 + digitVal y2) * 10 + digitVal y3) * 10 + digitVal y4) / 1000 % 10 = digitVal y1 := by
          omega
        have e2 : (((digitVal y1 * 10 + digitVal y2) * 10 + digitVal y3) * 10 + digitVal y4) / 100 % 10 = digitVal y2 := by
          omega
        have e3 : (((digitVal y1 * 10 + digitVal y2) * 10 + digitVal y3) * 10 + digitVal y4) / 10 % 10 = digitVal y3 := by
          omega
        have e4 : (((digitVal y1 * 10 + digitVal y2) * 10 + digitVal y3) * 10 + digitVal y4) % 10 = digitVal y4 := by
          omega
        have e5 : (digitVal m1 * 10 + digitVal m2) / 10 % 10 = digitVal m1 := by omega
        have e6 : (digitVal m1 * 10 + digitVal m2) % 10 = digitVal m2 := by omega
        have e7 : (digitVal d1 * 10 + digitVal d2) / 10 % 10 = digitVal d1 := by omega
        have e8 : (digitVal d1 * 10 + digitVal d2) % 10 = digitVal d2 := by omega
        rw [e1, e2, e3, e4, e5, e6, e7, e8, hc1, hc2]
        rw [digitChar_digitVal hy1, digitChar_digitVal hy2, digitChar_digitVal hy3,
          digitChar_digitVal hy4, digitChar_digitVal hm1, digitChar_digitVal hm2,
          digitChar_digitVal hd1, digitChar_digitVal hd2]
        rfl
      · exact absurd h (by simp)
    · exact absurd h (by simp)
  · exact absurd h (by simp)

theorem parseDate_char {s : String} {ts : ℤ} (h : parseDate s = some ts) :
    ∃ zd : ℤ, ts = msPerDay * zd ∧ -719528 ≤ zd ∧ zd ≤ 2932896 ∧
      s = dateString (civilFromDays zd) := by
  obtain ⟨y, m, d, hy1, hy2, hm1, hm2, hd1, hd2, hts, hs⟩ := parseDate_some h
  have hr := daysFromCivil_range y m d hy1 hy2 hm1 hm2 hd1 (le_trans hd2 (daysInMonth_le y m))
  refine ⟨daysFromCivil ⟨y, m, d⟩, hts, hr.1, hr.2, ?_⟩
  rw [civil_days_roundtrip y m d hm1 hm2 hd1 hd2]
  exact hs

/-! ## Random draw lemmas -/

theorem days_le_of_dateString_le {z1 z2 : ℤ}
    (h1 : -719528 ≤ z1) (h1' : z1 ≤ 2932896) (h2 : -719528 ≤ z2) (h2' : z2 ≤ 2932896)
    (h : dateString (civilFromDays z1) ≤ dateString (civilFromDays z2)) : z1 ≤ z2 := by
  by_contra hgt
  push_neg at hgt
  exact absurd h (not_le.mpr (dateString_lt_of_civil h2 hgt h1'))

theorem randIntVal_bounds {r : ℚ} (h0 : 0 ≤ r) (h1 : r < 1) {a b : ℤ} (hab : a ≤ b) :
    a ≤ randIntVal r a b ∧ randIntVal r a b ≤ b := by
  unfold randIntVal
  have hw : (1 : ℚ) ≤ (b : ℚ) - (a : ℚ) + 1 := by
    have : (a : ℚ) ≤ (b : ℚ) := by exact_mod_cast hab
    linarith
  have hlow : (0 : ℤ) ≤ ⌊r * ((b : ℚ) - (a : ℚ) + 1)⌋ := by
    apply Int.le_floor.mpr
    push_cast
    nlinarith
  have hhigh : ⌊r * ((b : ℚ) - (a : ℚ) + 1)⌋ < b - a + 1 := by
    apply Int.floor_lt.mpr
    push_cast
    nlinarith
  omega

theorem randIntVal_range {r : ℚ} (h0 : 0 ≤ r) (h1 : r < 1) (a b : ℤ) :
    min a b ≤ randIntVal r a b ∧ randIntVal r a b ≤ max a b := by
  rcases le_total a b with hab | hba
  · have := randIntVal_bounds h0 h1 hab
    omega
  · rcases eq_or_lt_of_le hba with he | hlt
    · rw [he]
      have := randIntVal_bounds h0 h1 (le_refl a)
      omega
    · unfold randIntVal
      have hw : (b : ℚ) - (a : ℚ) + 1 ≤ 0 := by
        have : (b : ℚ) + 1 ≤ (a : ℚ) := by exact_mod_cast hlt
        linarith
      have hup : ⌊r * ((b : ℚ) - (a : ℚ) + 1)⌋ ≤ 0 := by
        have hx : r * ((b : ℚ) - (a : ℚ) + 1) ≤ 0 := mul_nonpos_of_nonneg_of_nonpos h0 hw
        calc ⌊r * ((b : ℚ) - (a : ℚ) + 1)⌋ ≤ ⌊(0 : ℚ)⌋ := Int.floor_le_floor hx
          _ = 0 := Int.floor_zero
      have hlow : b - a + 1 ≤ ⌊r * ((b : ℚ) - (a : ℚ) + 1)⌋ := by
        have hx : ((b - a + 1 : ℤ) : ℚ) ≤ r * ((b : ℚ) - (a : ℚ) + 1) := by
          push_cast
          nlinarith
        calc (b - a + 1 : ℤ) = ⌊((b - a + 1 : ℤ) : ℚ)⌋ := (Int.floor_intCast _).symm
          _ ≤ ⌊r * ((b : ℚ) - (a : ℚ) + 1)⌋ := Int.floor_le_floor hx
      omega

theorem getRandomFloat_eq (g : Rng) (mn mx : ℚ) :
    getRandomFloat g mn mx = (g.stream g.k * (mx - mn) + mn, ⟨g.stream, g.k + 1⟩) := rfl

theorem getRandomFloat_mem {r mn mx : ℚ} (h0 : 0 ≤ r) (h1 : r < 1) (hle : mn ≤ mx) :
    mn ≤ r * (mx - mn) + mn ∧ r * (mx - mn) + mn ≤ mx := by
  constructor <;> nlinarith

theorem getRandomInt_intCast (g : Rng) (a b : ℤ) :
    getRandomInt g (a : ℚ) (b : ℚ) = (randIntVal (g.stream g.k) a b, ⟨g.stream, g.k + 1⟩) := by
  simp only [getRandomInt, Rng.next, randIntVal, Int.ceil_intCast, Int.floor_intCast]

theorem mkFeature_some_eq (g : Rng) (mla mxa mlo mxo : ℚ) (ts te : ℤ) :
    mkFeature g mla mxa mlo mxo (some ts) (some te) =
      (toISODate (some (randIntVal (g.stream (g.k + 1 + 1)) ts te))).map
        (fun ds =>
          ({ lon := g.stream (g.k + 1) * (mxo - mlo) + mlo,
             lat := g.stream g.k * (mxa - mla) + mla,
             intensity := g.stream (g.k + 1 + 1 + 1) *
               ((90 - |g.stream g.k * (mxa - mla) + mla|) / 90),
             trend := jsIndex trends (randIntVal (g.stream (g.k + 1 + 1 + 1 + 1)) 0 2),
             prediction := jsIndex predictions (randIntVal (g.stream (g.k + 1 + 1 + 1 + 1 + 1)) 0 3),
             date := ds }, ⟨g.stream, g.k + 1 + 1 + 1 + 1 + 1 + 1⟩)) := by
  simp only [mkFeature, getRandomFloat, getRandomIntOpt, getRandomInt, Rng.next, randIntVal,
    Int.ceil_intCast, Int.floor_intCast, Int.ceil_zero, Int.floor_ofNat]
  cases htd : toISODate (some (⌊g.stream (g.k + 1 + 1) * ((te : ℚ) - (ts : ℚ) + 1)⌋ + ts)) with
  | error e => simp [Except.map]
  | ok ds =>
    simp only [Except.map]
    norm_num

theorem mkFeature_none_eq (g : Rng) (mla mxa mlo mxo : ℚ) {st et : Option ℤ}
    (h : st = none ∨ et = none) :
    mkFeature g mla mxa mlo mxo st et = .error "RangeError: Invalid time value" := by
  have hopt : getRandomIntOpt (getRandomFloat (getRandomFloat g mla mxa).2 mlo mxo).2 st et =
      (none, ((getRandomFloat (getRandomFloat g mla mxa).2 mlo mxo).2).next.2) := by
    rcases h with h | h <;> subst h
    · cases et <;> rfl
    · cases st <;> rfl
  simp only [mkFeature, hopt]
  rfl

theorem mkFeature_ok_inv {g : Rng} {mla mxa mlo mxo : ℚ} {st et : Option ℤ}
    {f : Feature} {g' : Rng}
    (h : mkFeature g mla mxa mlo mxo st et = .ok (f, g')) :
    ∃ ts te : ℤ, st = some ts ∧ et = some te ∧
      g' = ⟨g.stream, g.k + 1 + 1 + 1 + 1 + 1 + 1⟩ ∧
      |randIntVal (g.stream (g.k + 1 + 1)) ts te| ≤ maxTimeValue ∧
      f = { lon := g.stream (g.k + 1) * (mxo - mlo) + mlo,
            lat := g.stream g.k * (mxa - mla) + mla,
            intensity := g.stream (g.k + 1 + 1 + 1) *
              ((90 - |g.stream g.k * (mxa - mla) + mla|) / 90),
            trend := jsIndex trends (randIntVal (g.stream (g.k + 1 + 1 + 1 + 1)) 0 2),
            prediction := jsIndex predictions (randIntVal (g.stream (g.k + 1 + 1 + 1 + 1 + 1)) 0 3),
            date := dateString (civilFromDays
              (randIntVal (g.stream (g.k + 1 + 1)) ts te / msPerDay)) } := by
  cases hst : st with
  | none =>
    rw [mkFeature_none_eq g mla mxa mlo mxo (Or.inl hst)] at h
    exact absurd h (by simp)
  | some ts =>
    cases het : et with
    | none =>
      rw [mkFeature_none_eq g mla mxa mlo mxo (Or.inr het)] at h
      exact absurd h (by simp)
    | some te =>
      subst hst het
      rw [mkFeature_some_eq] at h
      refine ⟨ts, te, rfl, rfl, ?_⟩
      cases htd : toISODate (some (randIntVal (g.stream (g.k + 1 + 1)) ts te)) with
      | error e =>
        rw [htd] at h
        exact absurd h (by simp [Except.map])
      | ok ds =>
        rw [htd] at h
        simp only [Except.map, Except.ok.injEq, Prod.mk.injEq] at h
        obtain ⟨hf, hg⟩ := h
        simp only [toISODate] at htd
        split at htd
        · rename_i hbound
          refine ⟨hg.symm, hbound, ?_⟩
          rw [← hf]
          simp only [Except.ok.injEq] at htd
          rw [← htd]
        · exact absurd htd (by simp)

theorem genFeatures_forall (mla mxa mlo mxo : ℚ) (st et : Option ℤ) (P : Feature → Prop)
    (hP : ∀ (g : Rng) (f : Feature) (g' : Rng), ValidRng g →
      mkFeature g mla mxa mlo mxo st et = .ok (f, g') → P f) :
    ∀ (n : ℕ) (g : Rng) (fs : List Feature) (g' : Rng), ValidRng g →
      genFeatures mla mxa mlo mxo st et n g = .ok (fs, g') → ∀ f ∈ fs, P f := by
  intro n
  induction n with
  | zero =>
    intro g fs g' hg h
    simp only [genFeatures, Except.ok.injEq, Prod.mk.injEq] at h
    rw [← h.1]
    intro f hf
    exact absurd hf (List.not_mem_nil f)
  | succ n ih =>
    intro g fs g' hg h
    simp only [genFeatures] at h
    cases hmk : mkFeature g mla mxa mlo mxo st et with
    | error e =>
      simp only [hmk] at h
      exact absurd h (by simp)
    | ok pr =>
      obtain ⟨f1, g1⟩ := pr
      simp only [hmk] at h
      cases hrec : genFeatures mla mxa mlo mxo st et n g1 with
      | error e =>
        simp only [hrec] at h
        exact absurd h (by simp)
      | ok pr2 =>
        obtain ⟨fs1, g2⟩ := pr2
        simp only [hrec, Except.ok.injEq, Prod.mk.injEq] at h
        have hg1 : ValidRng g1 := by
          obtain ⟨_, _, _, _, hgeq, _⟩ := mkFeature_ok_inv hmk
          intro i
          rw [hgeq]
          exact hg i
        intro f hf
        rw [← h.1] at hf
        rcases List.mem_cons.mp hf with he | hm
        · rw [he]
          exact hP g f1 g1 hg hmk
        · exact ih g1 fs1 g2 hg1 hrec f hm

theorem genFeatures_len (mla mxa mlo mxo : ℚ) (st et : Option ℤ) :
    ∀ (n : ℕ) (g : Rng) (fs : List Feature) (g' : Rng),
      genFeatures mla mxa mlo mxo st et n g = .ok (fs, g') → fs.length = n := by
  intro n
  induction n with
  | zero =>
    intro g fs g' h
    simp only [genFeatures, Except.ok.injEq, Prod.mk.injEq] at h
    rw [← h.1]
    rfl
  | succ n ih =>
    intro g fs g' h
    simp only [genFeatures] at h
    cases hmk : mkFeature g mla mxa mlo mxo st et with
    | error e =>
      simp only [hmk] at h
      exact absurd h (by simp)
    | ok pr =>
      obtain ⟨f1, g1⟩ := pr
      simp only [hmk] at h
      cases hrec : genFeatures mla mxa mlo mxo st et n g1 with
      | error e =>
        simp only [hrec] at h
        exact absurd h (by simp)
      | ok pr2 =>
        obtain ⟨fs1, g2⟩ := pr2
        simp only [hrec, Except.ok.injEq, Prod.mk.injEq] at h
        rw [← h.1]
        simp [ih g1 fs1 g2 hrec]

theorem genFeatures_all_ok (mla mxa mlo mxo : ℚ) {ts te : ℤ}
    (h1 : -62167219200000 ≤ ts) (h2 : ts ≤ 253402214400000)
    (h3 : -62167219200000 ≤ te) (h4 : te ≤ 253402214400000) :
    ∀ (n : ℕ) (g : Rng), ValidRng g →
      ∃ (fs : List Feature) (g' : Rng),
        genFeatures mla mxa mlo mxo (some ts) (some te) n g = .ok (fs, g') := by
  intro n
  induction n with
  | zero =>
    intro g hg
    exact ⟨[], g, rfl⟩
  | succ n ih =>
    intro g hg
    have hr := hg (g.k + 1 + 1)
    have hrt := randIntVal_range hr.1 hr.2 ts te
    have hbound : |randIntVal (g.stream (g.k + 1 + 1)) ts te| ≤ maxTimeValue := by
      unfold maxTimeValue
      rw [abs_le]
      omega
    have htd : toISODate (some (randIntVal (g.stream (g.k + 1 + 1)) ts te)) =
        .ok (dateString (civilFromDays
          (randIntVal (g.stream (g.k + 1 + 1)) ts te / msPerDay))) := by
      simp only [toISODate]
      rw [if_pos hbound]
    have mkeq := mkFeature_some_eq g mla mxa mlo mxo ts te
    rw [htd] at mkeq
    simp only [Except.map] at mkeq
    obtain ⟨fs, g', hrec⟩ := ih ⟨g.stream, g.k + 1 + 1 + 1 + 1 + 1 + 1⟩ (fun i => hg i)
    simp only [genFeatures, mkeq, hrec]
    exact ⟨_, _, rfl⟩

theorem generateBloomData_eq (g : Rng) (lat lon radius : ℚ) (s e : String) :
    generateBloomData g lat lon radius s e =
      match genFeatures (lat - radius) (lat + radius) (lon - radius) (lon + radius)
          (parseDate s) (parseDate e) (randIntVal (g.stream g.k) 150 350).toNat
          ⟨g.stream, g.k + 1⟩ with
      | .error err => .error err
      | .ok (fs, _) => .ok ⟨fs⟩ := by
  simp only [generateBloomData, getRandomInt, Rng.next, randIntVal]
  norm_num

theorem generate_forall (P : Feature → Prop) (g : Rng) (lat lon radius : ℚ) (s e : String)
    (hg : ValidRng g)
    (hP : ∀ (g1 : Rng) (f : Feature) (g2 : Rng), ValidRng g1 →
      mkFeature g1 (lat - radius) (lat + radius) (lon - radius) (lon + radius)
        (parseDate s) (parseDate e) = .ok (f, g2) → P f) :
    ∀ f ∈ featuresOf (generateBloomData g lat lon radius s e), P f := by
  rw [generateBloomData_eq]
  cases hgen : genFeatures (lat - radius) (lat + radius) (lon - radius) (lon + radius)
      (parseDate s) (parseDate e) (randIntVal (g.stream g.k) 150 350).toNat
      ⟨g.stream, g.k + 1⟩ with
  | error err =>
    simp only [hgen, featuresOf]
    intro f hf
    exact absurd hf (List.not_mem_nil f)
  | ok pr =>
    obtain ⟨fs, g'⟩ := pr
    simp only [hgen, featuresOf]
    exact genFeatures_forall _ _ _ _ _ _ P hP _ ⟨g.stream, g.k + 1⟩ fs g' (fun i => hg i) hgen

theorem generate_ok {g : Rng} (hg : ValidRng g) (lat lon radius : ℚ) {s e : String} {ts te : ℤ}
    (hs : parseDate s = some ts) (he : parseDate e = some te) :
    ∃ fc : FeatureCollection, generateBloomData g lat lon radius s e = .ok fc ∧
      fc.features.length = (randIntVal (g.stream g.k) 150 350).toNat := by
  obtain ⟨zs, hts, hzs1, hzs2, _⟩ := parseDate_char hs
  obtain ⟨ze, hte, hze1, hze2, _⟩ := parseDate_char he
  have hmsd : msPerDay = 86400000 := rfl
  rw [hmsd] at hts hte
  have hb1 : -62167219200000 ≤ ts := by omega
  have hb2 : ts ≤ 253402214400000 := by omega
  have hb3 : -62167219200000 ≤ te := by omega
  have hb4 : te ≤ 253402214400000 := by omega
  obtain ⟨fs, g', hok⟩ := genFeatures_all_ok (lat - radius) (lat + radius) (lon - radius)
    (lon + radius) hb1 hb2 hb3 hb4 (randIntVal (g.stream g.k) 150 350).toNat
    ⟨g.stream, g.k + 1⟩ (fun i => hg i)
  refine ⟨⟨fs⟩, ?_, genFeatures_len _ _ _ _ _ _ _ _ _ _ hok⟩
  rw [generateBloomData_eq, hs, he, hok]

theorem generate_err {g : Rng} (hg : ValidRng g) (lat lon radius : ℚ) {s e : String}
    (h : parseDate s = none ∨ parseDate e = none) :
    generateBloomData g lat lon radius s e = .error "RangeError: Invalid time value" := by
  have hc := randIntVal_bounds (hg g.k).1 (hg g.k).2 (show (150 : ℤ) ≤ 350 by omega)
  obtain ⟨n, hn⟩ : ∃ n, (randIntVal (g.stream g.k) 150 350).toNat = n + 1 := by
    have h1 : 1 ≤ (randIntVal (g.stream g.k) 150 350).toNat := by omega
    exact ⟨_, (Nat.succ_pred_eq_of_pos h1).symm⟩
  rw [generateBloomData_eq, hn]
  simp only [genFeatures, mkFeature_none_eq ⟨g.stream, g.k + 1⟩ _ _ _ _ h]

theorem randIntVal_zero (a b : ℤ) : randIntVal 0 a b = a := by
  unfold randIntVal
  rw [zero_mul, Int.floor_zero, zero_add]

theorem mkFeature_zero_eq (k : ℕ) (mla mxa mlo mxo : ℚ) (ts te : ℤ)
    (hb : |ts| ≤ maxTimeValue) :
    mkFeature ⟨fun _ => 0, k⟩ mla mxa mlo mxo (some ts) (some te) =
      .ok ({ lon := mlo, lat := mla, intensity := 0,
             trend := some "earlier", prediction := some "significant",
             date := dateString (civilFromDays (ts / msPerDay)) },
           ⟨fun _ => 0, k + 1 + 1 + 1 + 1 + 1 + 1⟩) := by
  rw [mkFeature_some_eq]
  have hz : ∀ i : ℕ, (Rng.mk (fun _ => (0 : ℚ)) k).stream i = 0 := fun _ => rfl
  simp only [hz, randIntVal_zero]
  have htd : toISODate (some ts) = .ok (dateString (civilFromDays (ts / msPerDay))) := by
    simp only [toISODate]
    rw [if_pos hb]
  rw [htd]
  simp only [Except.map, Except.ok.injEq, Prod.mk.injEq]
  constructor
  · simp [Feature.mk.injEq, zero_mul, zero_add, jsIndex, trends, predictions]
  · trivial

theorem genFeatures_zero_run (mla mxa mlo mxo : ℚ) (ts te : ℤ) (hb : |ts| ≤ maxTimeValue) :
    ∀ (n : ℕ) (k : ℕ),
      genFeatures mla mxa mlo mxo (some ts) (some te) n ⟨fun _ => 0, k⟩ =
        .ok (List.replicate n
          { lon := mlo, lat := mla, intensity := 0,
            trend := some "earlier", prediction := some "significant",
            date := dateString (civilFromDays (ts / msPerDay)) },
          ⟨fun _ => 0, k + 6 * n⟩) := by
  intro n
  induction n with
  | zero =>
    intro k
    simp only [genFeatures, List.replicate_zero, Nat.mul_zero, Nat.add_zero]
  | succ n ih =>
    intro k
    simp only [genFeatures, mkFeature_zero_eq k mla mxa mlo mxo ts te hb,
      ih (k + 1 + 1 + 1 + 1 + 1 + 1), List.replicate_succ, Except.ok.injEq, Prod.mk.injEq]
    refine ⟨trivial, ?_⟩
    congr 1
    omega

theorem generate_zero_eq (lat lon radius : ℚ) {s e : String} {ts te : ℤ}
    (hs : parseDate s = some ts) (he : parseDate e = some te) :
    generateBloomData zeroRng lat lon radius s e =
      .ok ⟨List.replicate 150
        { lon := lon - radius, lat := lat - radius, intensity := 0,
          trend := some "earlier", prediction := some "significant",
          date := dateString (civilFromDays (ts / msPerDay)) }⟩ := by
  obtain ⟨zs, hts, hzs1, hzs2, _⟩ := parseDate_char hs
  have hb : |ts| ≤ maxTimeValue := by
    have hmsd : msPerDay = 86400000 := rfl
    rw [hmsd] at hts
    unfold maxTimeValue
    rw [abs_le]
    omega
  rw [generateBloomData_eq, hs, he]
  have h150 : randIntVal (zeroRng.stream zeroRng.k) 150 350 = 150 := randIntVal_zero 150 350
  rw [h150]
  have hrec := genFeatures_zero_run (lat - radius) (lat + radius) (lon - radius) (lon + radius)
    ts te hb (150 : ℤ).toNat (0 + 1)
  have hzg : (Rng.mk (fun _ => (0 : ℚ)) (0 + 1)) = ⟨zeroRng.stream, zeroRng.k + 1⟩ := rfl
  rw [hzg] at hrec
  rw [hrec]
  simp [Int.toNat_ofNat]

theorem zeroRngValid : ValidRng zeroRng := fun i => ⟨le_refl 0, by norm_num [zeroRng]⟩

theorem hiRngValid : ValidRng ⟨fun _ => 200 / 201, 0⟩ := fun i => ⟨by norm_num, by norm_num⟩

theorem zeroRunFeature_eq (mla mlo : ℚ) (zd : ℤ) :
    zeroRunFeature mla mlo zd =
      { lon := mlo, lat := mla, intensity := 0,
        trend := some "earlier", prediction := some "significant",
        date := dateString (civilFromDays zd) } := rfl

/-! ## Claim theorems -/

/-- C1 counterexample: the claimed strict bound `intensity < (90 - |latitude|)/90`
fails on the code. With center latitude 90 and radius 0 every generated point has
latitude exactly 90 (which satisfies `|latitude| ≤ 90`), `latitudeFactor = 0` and
`intensity = 0`, and `0 < 0` is false. -/
theorem intensity_strict_cex :
    ∃ f ∈ featuresOf (generateBloomData zeroRng 90 0 0 "2025-01-01" "2025-01-01"),
      |f.lat| ≤ 90 ∧ ¬ f.intensity < (90 - |f.lat|) / 90 := by
  refine ⟨zeroRunFeature (90 - 0) (0 - 0) (1735689600000 / msPerDay), ?_, ?_, ?_⟩
  · rw [generate_zero_eq 90 0 0
      (show parseDate "2025-01-01" = some 1735689600000 by decide)
      (show parseDate "2025-01-01" = some 1735689600000 by decide)]
    exact List.mem_replicate.mpr ⟨by norm_num, rfl⟩
  · show |(90 : ℚ) - 0| ≤ 90
    norm_num
  · show ¬ (0 : ℚ) < (90 - |(90 : ℚ) - 0|) / 90
    norm_num

/-- C1 (amended): for every returned observation whose latitude satisfies
`|latitude| ≤ 90`, `intensity` lies in `[0, 1)` and `intensity ≤ (90 - |latitude|)/90`,
with the inequality strict whenever `|latitude| < 90` (at `|latitude| = 90` the
intensity equals the bound, both being 0). -/
theorem intensity_bounds_amended (g : Rng) (hg : ValidRng g) (lat lon radius : ℚ)
    (s e : String) (f : Feature)
    (hf : f ∈ featuresOf (generateBloomData g lat lon radius s e))
    (hlat : |f.lat| ≤ 90) :
    0 ≤ f.intensity ∧ f.intensity < 1 ∧ f.intensity ≤ (90 - |f.lat|) / 90 ∧
      (|f.lat| < 90 → f.intensity < (90 - |f.lat|) / 90) := by
  revert hlat
  refine generate_forall
    (fun f => |f.lat| ≤ 90 → 0 ≤ f.intensity ∧ f.intensity < 1 ∧
      f.intensity ≤ (90 - |f.lat|) / 90 ∧
      (|f.lat| < 90 → f.intensity < (90 - |f.lat|) / 90))
    g lat lon radius s e hg ?_ f hf
  intro g1 f1 g2 hg1 hmk
  obtain ⟨ts, te, _, _, _, _, hfeq⟩ := mkFeature_ok_inv hmk
  rw [hfeq]
  dsimp only
  intro hlat1
  have hr := hg1 (g1.k + 1 + 1 + 1)
  have habs : (0 : ℚ) ≤ |g1.stream g1.k * (lat + radius - (lat - radius)) + (lat - radius)| :=
    abs_nonneg _
  have hq0 : (0 : ℚ) ≤
      (90 - |g1.stream g1.k * (lat + radius - (lat - radius)) + (lat - radius)|) / 90 :=
    div_nonneg (by linarith) (by norm_num)
  have hq1 : (90 - |g1.stream g1.k * (lat + radius - (lat - radius)) + (lat - radius)|) / 90 ≤ 1 := by
    rw [div_le_one (show (0 : ℚ) < 90 by norm_num)]
    linarith
  refine ⟨mul_nonneg hr.1 hq0, ?_, ?_, ?_⟩
  · calc g1.stream (g1.k + 1 + 1 + 1) *
        ((90 - |g1.stream g1.k * (lat + radius - (lat - radius)) + (lat - radius)|) / 90) ≤
        g1.stream (g1.k + 1 + 1 + 1) * 1 := mul_le_mul_of_nonneg_left hq1 hr.1
      _ = g1.stream (g1.k + 1 + 1 + 1) := mul_one _
      _ < 1 := hr.2
  · calc g1.stream (g1.k + 1 + 1 + 1) *
        ((90 - |g1.stream g1.k * (lat + radius - (lat - radius)) + (lat - radius)|) / 90) ≤
        1 * ((90 - |g1.stream g1.k * (lat + radius - (lat - radius)) + (lat - radius)|) / 90) :=
          mul_le_mul_of_nonneg_right (le_of_lt hr.2) hq0
      _ = (90 - |g1.stream g1.k * (lat + radius - (lat - radius)) + (lat - radius)|) / 90 :=
          one_mul _
  · intro hstrict
    have hqpos : (0 : ℚ) <
        (90 - |g1.stream g1.k * (lat + radius - (lat - radius)) + (lat - radius)|) / 90 :=
      div_pos (by linarith) (by norm_num)
    calc g1.stream (g1.k + 1 + 1 + 1) *
        ((90 - |g1.stream g1.k * (lat + radius - (lat - radius)) + (lat - radius)|) / 90) <
        1 * ((90 - |g1.stream g1.k * (lat + radius - (lat - radius)) + (lat - radius)|) / 90) :=
          mul_lt_mul_of_pos_right hr.2 hqpos
      _ = (90 - |g1.stream g1.k * (lat + radius - (lat - radius)) + (lat - radius)|) / 90 :=
          one_mul _

/-- C1 witness: the amended theorem applied to a concrete run (all-zero random
source, center (0,0), radius 0, dates 2025-01-01). -/
theorem intensity_bounds_amended_wit :
    0 ≤ (zeroRunFeature (0 - 0) (0 - 0) (1735689600000 / msPerDay)).intensity ∧
    (zeroRunFeature (0 - 0) (0 - 0) (1735689600000 / msPerDay)).intensity < 1 ∧
    (zeroRunFeature (0 - 0) (0 - 0) (1735689600000 / msPerDay)).intensity ≤
      (90 - |(zeroRunFeature (0 - 0) (0 - 0) (1735689600000 / msPerDay)).lat|) / 90 ∧
    (|(zeroRunFeature (0 - 0) (0 - 0) (1735689600000 / msPerDay)).lat| < 90 →
      (zeroRunFeature (0 - 0) (0 - 0) (1735689600000 / msPerDay)).intensity <
        (90 - |(zeroRunFeature (0 - 0) (0 - 0) (1735689600000 / msPerDay)).lat|) / 90) :=
  intensity_bounds_amended zeroRng zeroRngValid 0 0 0 "2025-01-01" "2025-01-01"
    (zeroRunFeature (0 - 0) (0 - 0) (1735689600000 / msPerDay))
    (by rw [generate_zero_eq 0 0 0
          (show parseDate "2025-01-01" = some 1735689600000 by decide)
          (show parseDate "2025-01-01" = some 1735689600000 by decide)]
        exact List.mem_replicate.mpr ⟨by norm_num, rfl⟩)
    (by show |(0 : ℚ) - 0| ≤ 90
        norm_num)

/-- C2 counterexample: the generator does throw. With an unparseable start date
string, `new Date(NaN).toISOString()` raises `RangeError: Invalid time value`
in the first loop iteration (the count is always at least 150 ≥ 1). -/
theorem generator_throw_cex :
    generateBloomData zeroRng 0 0 1 "foo" "2025-05-31" =
      .error "RangeError: Invalid time value" :=
  generate_err zeroRngValid 0 0 1 (Or.inl (by decide))

/-- C2 (amended): `generateBloomData` returns a feature collection for every
random source and all numeric inputs whenever both date strings parse as valid
dates (including inverted date ranges and NaN-free degenerate boxes); when
either date string fails to parse it throws `RangeError: Invalid time value`
instead of returning. -/
theorem generator_throw_characterization (g : Rng) (hg : ValidRng g)
    (lat lon radius : ℚ) (s e : String) :
    ((∃ ts, parseDate s = some ts) ∧ (∃ te, parseDate e = some te) →
      ∃ fc, generateBloomData g lat lon radius s e = .ok fc) ∧
    ((parseDate s = none ∨ parseDate e = none) →
      generateBloomData g lat lon radius s e = .error "RangeError: Invalid time value") := by
  constructor
  · rintro ⟨⟨ts, hs⟩, ⟨te, he⟩⟩
    obtain ⟨fc, hok, _⟩ := generate_ok hg lat lon radius hs he
    exact ⟨fc, hok⟩
  · exact generate_err hg lat lon radius

/-- C2 witness: with valid dates the generator returns a collection; with an
unparseable date it throws, both at concrete inputs. -/
theorem generator_throw_characterization_wit :
    (∃ fc, generateBloomData zeroRng 0 0 1 "2025-03-01" "2025-05-31" = .ok fc) ∧
    generateBloomData zeroRng 0 0 1 "foo" "2025-05-31" =
      .error "RangeError: Invalid time value" :=
  ⟨(generator_throw_characterization zeroRng zeroRngValid 0 0 1 "2025-03-01" "2025-05-31").1
      ⟨⟨1740787200000, by decide⟩, ⟨1748649600000, by decide⟩⟩,
    (generator_throw_characterization zeroRng zeroRngValid 0 0 1 "foo" "2025-05-31").2
      (Or.inl (by decide))⟩

/-- C3: for every returned observation, given parseable dates with
`startDate ≤ endDate` (as strings), `properties.date` is lexicographically
between `startDate` and `endDate` inclusive; when the two dates are equal every
observation's date equals that date.  The per-point timestamp is drawn
uniformly in `[startTime, endTime]` and truncated to calendar-day precision. -/
theorem observation_date_in_range (g : Rng) (hg : ValidRng g) (lat lon radius : ℚ)
    (s e : String) (ts te : ℤ) (hs : parseDate s = some ts) (he : parseDate e = some te)
    (hse : s ≤ e) (f : Feature)
    (hf : f ∈ featuresOf (generateBloomData g lat lon radius s e)) :
    s ≤ f.date ∧ f.date ≤ e ∧ (s = e → f.date = s) := by
  obtain ⟨zs, hts, hzs1, hzs2, hsstr⟩ := parseDate_char hs
  obtain ⟨ze, hte, hze1, hze2, hestr⟩ := parseDate_char he
  have hmsne : msPerDay ≠ 0 := by norm_num [msPerDay]
  have hmspos : (0 : ℤ) < msPerDay := by norm_num [msPerDay]
  have hzz : zs ≤ ze := by
    apply days_le_of_dateString_le hzs1 hzs2 hze1 hze2
    rw [← hsstr, ← hestr]
    exact hse
  have htse : ts ≤ te := by
    rw [hts, hte]
    exact mul_le_mul_of_nonneg_left hzz (le_of_lt hmspos)
  refine generate_forall (fun f => s ≤ f.date ∧ f.date ≤ e ∧ (s = e → f.date = s))
    g lat lon radius s e hg ?_ f hf
  intro g1 f1 g2 hg1 hmk
  obtain ⟨ts', te', hs', he', _, hbound, hfeq⟩ := mkFeature_ok_inv hmk
  rw [hs] at hs'
  rw [he] at he'
  have hts' : ts' = ts := (Option.some.inj hs').symm
  have hte' : te' = te := (Option.some.inj he').symm
  rw [hts', hte'] at hfeq
  have hr := hg1 (g1.k + 1 + 1)
  have hrtb := randIntVal_bounds hr.1 hr.2 htse
  have hsdiv : ts / msPerDay = zs := by
    rw [hts]
    exact Int.mul_ediv_cancel_left zs hmsne
  have hediv : te / msPerDay = ze := by
    rw [hte]
    exact Int.mul_ediv_cancel_left ze hmsne
  have hdayl : zs ≤ randIntVal (g1.stream (g1.k + 1 + 1)) ts te / msPerDay := by
    calc zs = ts / msPerDay := hsdiv.symm
      _ ≤ randIntVal (g1.stream (g1.k + 1 + 1)) ts te / msPerDay :=
        Int.ediv_le_ediv hmspos hrtb.1
  have hdayu : randIntVal (g1.stream (g1.k + 1 + 1)) ts te / msPerDay ≤ ze := by
    calc randIntVal (g1.stream (g1.k + 1 + 1)) ts te / msPerDay ≤ te / msPerDay :=
        Int.ediv_le_ediv hmspos hrtb.2
      _ = ze := hediv
  rw [hfeq]
  dsimp only
  refine ⟨?_, ?_, ?_⟩
  · rw [hsstr]
    exact dateString_le_of_civil hzs1 hdayl (by omega)
  · rw [hestr]
    exact dateString_le_of_civil (by omega) hdayu hze2
  · intro hseq
    have htseq : ts = te := by
      rw [hseq] at hs
      rw [hs] at he
      exact Option.some.inj he
    have hrteq : randIntVal (g1.stream (g1.k + 1 + 1)) ts te = ts := by
      have := hrtb
      omega
    rw [hrteq, hsdiv, hsstr]

/-- C3 witness: the theorem applied to a concrete run (all-zero random source,
center (0,0), radius 1, dates 2025-03-01 .. 2025-05-31). -/
theorem observation_date_in_range_wit :
    "2025-03-01" ≤ (zeroRunFeature (0 - 1) (0 - 1) (1740787200000 / msPerDay)).date ∧
    (zeroRunFeature (0 - 1) (0 - 1) (1740787200000 / msPerDay)).date ≤ "2025-05-31" ∧
    ("2025-03-01" = "2025-05-31" →
      (zeroRunFeature (0 - 1) (0 - 1) (1740787200000 / msPerDay)).date = "2025-03-01") :=
  observation_date_in_range zeroRng zeroRngValid 0 0 1 "2025-03-01" "2025-05-31"
    1740787200000 1748649600000 (by decide) (by decide)
    (by rw [String.le_iff_toList_le]; decide)
    (zeroRunFeature (0 - 1) (0 - 1) (1740787200000 / msPerDay))
    (by rw [generate_zero_eq 0 0 1
          (show parseDate "2025-03-01" = some 1740787200000 by decide)
          (show parseDate "2025-05-31" = some 1748649600000 by decide)]
        exact List.mem_replicate.mpr ⟨by norm_num, rfl⟩)

/-- C4: for every returned observation, given `radius ≥ 0`, the latitude lies in
`[centerLat - radius, centerLat + radius]` and the longitude lies in
`[centerLon - radius, centerLon + radius]`. -/
theorem coordinates_in_box (g : Rng) (hg : ValidRng g) (lat lon radius : ℚ)
    (hrad : 0 ≤ radius) (s e : String) (f : Feature)
    (hf : f ∈ featuresOf (generateBloomData g lat lon radius s e)) :
    lat - radius ≤ f.lat ∧ f.lat ≤ lat + radius ∧
      lon - radius ≤ f.lon ∧ f.lon ≤ lon + radius := by
  refine generate_forall
    (fun f => lat - radius ≤ f.lat ∧ f.lat ≤ lat + radius ∧
      lon - radius ≤ f.lon ∧ f.lon ≤ lon + radius)
    g lat lon radius s e hg ?_ f hf
  intro g1 f1 g2 hg1 hmk
  obtain ⟨ts, te, _, _, _, _, hfeq⟩ := mkFeature_ok_inv hmk
  rw [hfeq]
  dsimp only
  have h1 := getRandomFloat_mem (hg1 g1.k).1 (hg1 g1.k).2
    (show lat - radius ≤ lat + radius by linarith)
  have h2 := getRandomFloat_mem (hg1 (g1.k + 1)).1 (hg1 (g1.k + 1)).2
    (show lon - radius ≤ lon + radius by linarith)
  exact ⟨h1.1, h1.2, h2.1, h2.2⟩

/-- C4 witness: the theorem applied to a concrete run. -/
theorem coordinates_in_box_wit :
    0 - 1 ≤ (zeroRunFeature (0 - 1) (0 - 1) (1740787200000 / msPerDay)).lat ∧
    (zeroRunFeature (0 - 1) (0 - 1) (1740787200000 / msPerDay)).lat ≤ 0 + 1 ∧
    0 - 1 ≤ (zeroRunFeature (0 - 1) (0 - 1) (1740787200000 / msPerDay)).lon ∧
    (zeroRunFeature (0 - 1) (0 - 1) (1740787200000 / msPerDay)).lon ≤ 0 + 1 :=
  coordinates_in_box zeroRng zeroRngValid 0 0 1 (by norm_num) "2025-03-01" "2025-05-31"
    (zeroRunFeature (0 - 1) (0 - 1) (1740787200000 / msPerDay))
    (by rw [generate_zero_eq 0 0 1
          (show parseDate "2025-03-01" = some 1740787200000 by decide)
          (show parseDate "2025-05-31" = some 1748649600000 by decide)]
        exact List.mem_replicate.mpr ⟨by norm_num, rfl⟩)

/-- C5: whenever the generator returns, the number of features is an integer in
`[150, 350]`, and both endpoints are attainable (by the all-zeroes source and
by a source drawing `200/201` first, respectively). -/
theorem feature_count_bounds :
    (∀ (g : Rng), ValidRng g → ∀ (lat lon radius : ℚ) (s e : String)
        (fc : FeatureCollection), generateBloomData g lat lon radius s e = .ok fc →
        150 ≤ fc.features.length ∧ fc.features.length ≤ 350) ∧
    (∃ fc1, generateBloomData zeroRng 0 0 1 "2025-03-01" "2025-05-31" = .ok fc1 ∧
      fc1.features.length = 150) ∧
    (∃ g2, ValidRng g2 ∧ ∃ fc2, generateBloomData g2 0 0 1 "2025-03-01" "2025-05-31" = .ok fc2 ∧
      fc2.features.length = 350) := by
  refine ⟨?_, ?_, ?_⟩
  · intro g hg lat lon radius s e fc hok
    have hc := randIntVal_bounds (hg g.k).1 (hg g.k).2 (show (150 : ℤ) ≤ 350 by omega)
    rw [generateBloomData_eq] at hok
    cases hgen : genFeatures (lat - radius) (lat + radius) (lon - radius) (lon + radius)
        (parseDate s) (parseDate e) (randIntVal (g.stream g.k) 150 350).toNat
        ⟨g.stream, g.k + 1⟩ with
    | error err =>
      rw [hgen] at hok
      exact absurd hok (by simp)
    | ok pr =>
      obtain ⟨fs, g'⟩ := pr
      rw [hgen] at hok
      simp only [Except.ok.injEq] at hok
      have hlen := genFeatures_len _ _ _ _ _ _ _ _ _ _ hgen
      rw [← hok]
      simp only [hlen]
      omega
  · refine ⟨_, generate_zero_eq 0 0 1
      (show parseDate "2025-03-01" = some 1740787200000 by decide)
      (show parseDate "2025-05-31" = some 1748649600000 by decide), ?_⟩
    simp
  · refine ⟨⟨fun _ => 200 / 201, 0⟩, hiRngValid, ?_⟩
    obtain ⟨fc2, hok, hlen⟩ := generate_ok hiRngValid 0 0 1
      (show parseDate "2025-03-01" = some 1740787200000 by decide)
      (show parseDate "2025-05-31" = some 1748649600000 by decide)
    refine ⟨fc2, hok, ?_⟩
    rw [hlen]
    have hv : randIntVal ((Rng.mk (fun _ => (200 : ℚ) / 201) 0).stream
        (Rng.mk (fun _ => (200 : ℚ) / 201) 0).k) 150 350 = 350 := by
      show randIntVal ((200 : ℚ) / 201) 150 350 = 350
      unfold randIntVal
      have : (200 : ℚ) / 201 * (((350 : ℤ) : ℚ) - ((150 : ℤ) : ℚ) + 1) = 200 := by
        norm_num
      rw [this]
      norm_num
    rw [hv]
    rfl

/-- C5 witness: the universally quantified part applied to a concrete run. -/
theorem feature_count_bounds_wit :
    150 ≤ (FeatureCollection.mk (List.replicate 150
        (zeroRunFeature (0 - 1) (0 - 1) (1740787200000 / msPerDay)))).features.length ∧
    (FeatureCollection.mk (List.replicate 150
        (zeroRunFeature (0 - 1) (0 - 1) (1740787200000 / msPerDay)))).features.length ≤ 350 :=
  feature_count_bounds.1 zeroRng zeroRngValid 0 0 1 "2025-03-01" "2025-05-31" _
    (generate_zero_eq 0 0 1
      (show parseDate "2025-03-01" = some 1740787200000 by decide)
      (show parseDate "2025-05-31" = some 1748649600000 by decide))

/-- C6: every returned observation's `trend` is one of
`earlier`/`stable`/`later` and its `prediction` is one of
`significant`/`moderate`/`slight`/`no_change`: the random indices stay within
the bounds of the two literal arrays. -/
theorem trend_prediction_categories (g : Rng) (hg : ValidRng g) (lat lon radius : ℚ)
    (s e : String) (f : Feature)
    (hf : f ∈ featuresOf (generateBloomData g lat lon radius s e)) :
    (f.trend = some "earlier" ∨ f.trend = some "stable" ∨ f.trend = some "later") ∧
    (f.prediction = some "significant" ∨ f.prediction = some "moderate" ∨
      f.prediction = some "slight" ∨ f.prediction = some "no_change") := by
  refine generate_forall
    (fun f => (f.trend = some "earlier" ∨ f.trend = some "stable" ∨ f.trend = some "later") ∧
      (f.prediction = some "significant" ∨ f.prediction = some "moderate" ∨
        f.prediction = some "slight" ∨ f.prediction = some "no_change"))
    g lat lon radius s e hg ?_ f hf
  intro g1 f1 g2 hg1 hmk
  obtain ⟨ts, te, _, _, _, _, hfeq⟩ := mkFeature_ok_inv hmk
  rw [hfeq]
  dsimp only
  constructor
  · have hr := hg1 (g1.k + 1 + 1 + 1 + 1)
    have hb := randIntVal_bounds hr.1 hr.2 (show (0 : ℤ) ≤ 2 by omega)
    have h3 : randIntVal (g1.stream (g1.k + 1 + 1 + 1 + 1)) 0 2 = 0 ∨
        randIntVal (g1.stream (g1.k + 1 + 1 + 1 + 1)) 0 2 = 1 ∨
        randIntVal (g1.stream (g1.k + 1 + 1 + 1 + 1)) 0 2 = 2 := by omega
    rcases h3 with h | h | h <;> rw [h] <;> simp [jsIndex, trends]
  · have hr := hg1 (g1.k + 1 + 1 + 1 + 1 + 1)
    have hb := randIntVal_bounds hr.1 hr.2 (show (0 : ℤ) ≤ 3 by omega)
    have h4 : randIntVal (g1.stream (g1.k + 1 + 1 + 1 + 1 + 1)) 0 3 = 0 ∨
        randIntVal (g1.stream (g1.k + 1 + 1 + 1 + 1 + 1)) 0 3 = 1 ∨
        randIntVal (g1.stream (g1.k + 1 + 1 + 1 + 1 + 1)) 0 3 = 2 ∨
        randIntVal (g1.stream (g1.k + 1 + 1 + 1 + 1 + 1)) 0 3 = 3 := by omega
    rcases h4 with h | h | h | h <;> rw [h] <;> simp [jsIndex, predictions]

/-- C6 witness: the theorem applied to a concrete run. -/
theorem trend_prediction_categories_wit :
    ((zeroRunFeature (0 - 1) (0 - 1) (1740787200000 / msPerDay)).trend = some "earlier" ∨
      (zeroRunFeature (0 - 1) (0 - 1) (1740787200000 / msPerDay)).trend = some "stable" ∨
      (zeroRunFeature (0 - 1) (0 - 1) (1740787200000 / msPerDay)).trend = some "later") ∧
    ((zeroRunFeature (0 - 1) (0 - 1) (1740787200000 / msPerDay)).prediction = some "significant" ∨
      (zeroRunFeature (0 - 1) (0 - 1) (1740787200000 / msPerDay)).prediction = some "moderate" ∨
      (zeroRunFeature (0 - 1) (0 - 1) (1740787200000 / msPerDay)).prediction = some "slight" ∨
      (zeroRunFeature (0 - 1) (0 - 1) (1740787200000 / msPerDay)).prediction = some "no_change") :=
  trend_prediction_categories zeroRng zeroRngValid 0 0 1 "2025-03-01" "2025-05-31"
    (zeroRunFeature (0 - 1) (0 - 1) (1740787200000 / msPerDay))
    (by rw [generate_zero_eq 0 0 1
          (show parseDate "2025-03-01" = some 1740787200000 by decide)
          (show parseDate "2025-05-31" = some 1748649600000 by decide)]
        exact List.mem_replicate.mpr ⟨by norm_num, rfl⟩)

/-- C9: the generation loop is bounded — a returned collection never holds more
than 350 features (the loop runs `numberOfPoints ≤ 350` iterations, and an
exception can only shorten, never lengthen, the output).  Termination itself is
by construction: the embedding is a total structurally recursive function. -/
theorem generator_iterations_bounded (g : Rng) (hg : ValidRng g) (lat lon radius : ℚ)
    (s e : String) :
    (featuresOf (generateBloomData g lat lon radius s e)).length ≤ 350 := by
  have hc := randIntVal_bounds (hg g.k).1 (hg g.k).2 (show (150 : ℤ) ≤ 350 by omega)
  rw [generateBloomData_eq]
  cases hgen : genFeatures (lat - radius) (lat + radius) (lon - radius) (lon + radius)
      (parseDate s) (parseDate e) (randIntVal (g.stream g.k) 150 350).toNat
      ⟨g.stream, g.k + 1⟩ with
  | error err => simp [featuresOf]
  | ok pr =>
    obtain ⟨fs, g'⟩ := pr
    simp only [featuresOf]
    have hlen := genFeatures_len _ _ _ _ _ _ _ _ _ _ hgen
    rw [hlen]
    omega

/-- C9 witness: the bound at a concrete input. -/
theorem generator_iterations_bounded_wit :
    (featuresOf (generateBloomData zeroRng 0 0 1 "2025-03-01" "2025-05-31")).length ≤ 350 :=
  generator_iterations_bounded zeroRng zeroRngValid 0 0 1 "2025-03-01" "2025-05-31"

/-- C7: a request with any of the five query parameters absent is answered with
HTTP 400 and exactly the missing-parameter error body; the result does not
depend on the random source or the number parser, so the generator is never
invoked. -/
theorem missing_params_400 (g : Rng) (pf : String → Option ℚ) (q : Query)
    (h : q.lat = none ∨ q.lon = none ∨ q.radius = none ∨
      q.startDate = none ∨ q.endDate = none) :
    handleBloomData g pf q = .ok (400, .err missingMsg) := by
  unfold handleBloomData
  have hc : (!truthy q.lat || !truthy q.lon || !truthy q.radius ||
      !truthy q.startDate || !truthy q.endDate) = true := by
    rcases h with h | h | h | h | h <;> rw [h] <;> simp [truthy]
  rw [if_pos hc]

/-- C7 witness: a concrete request with `lat` absent. -/
theorem missing_params_400_wit :
    handleBloomData zeroRng (fun _ => none)
      ⟨none, some "0", some "1", some "2025-03-01", some "2025-05-31"⟩ =
      .ok (400, .err missingMsg) :=
  missing_params_400 zeroRng (fun _ => none)
    ⟨none, some "0", some "1", some "2025-03-01", some "2025-05-31"⟩ (Or.inl rfl)

/-- C8: with all five parameters present (and non-empty), a request whose
`lat`, `lon` or `radius` does not parse as a number is answered with HTTP 400
and exactly the invalid-number body; conversely, when all three parse the
handler proceeds to the generator (responding 200 with its data, or
propagating its exception), so such requests are never rejected with the
invalid-number body. -/
theorem invalid_geo_400 (g : Rng) (pf : String → Option ℚ) (q : Query)
    (la lo ra sd ed : String)
    (hl : q.lat = some la) (ho : q.lon = some lo) (hr : q.radius = some ra)
    (hsd : q.startDate = some sd) (hed : q.endDate = some ed)
    (hl2 : la ≠ "") (ho2 : lo ≠ "") (hr2 : ra ≠ "") (hsd2 : sd ≠ "") (hed2 : ed ≠ "") :
    ((pf la = none ∨ pf lo = none ∨ pf ra = none) →
      handleBloomData g pf q = .ok (400, .err invalidGeoMsg)) ∧
    (∀ ln lon2 rn : ℚ, pf la = some ln → pf lo = some lon2 → pf ra = some rn →
      handleBloomData g pf q =
        (generateBloomData g ln lon2 rn sd ed).map (fun fc => (200, Body.json fc))) := by
  have hc : (!truthy q.lat || !truthy q.lon || !truthy q.radius ||
      !truthy q.startDate || !truthy q.endDate) = false := by
    rw [hl, ho, hr, hsd, hed]
    simp [truthy, hl2, ho2, hr2, hsd2, hed2]
  constructor
  · intro h
    unfold handleBloomData
    rw [if_neg (by rw [hc]; simp)]
    rw [hl, ho, hr]
    simp only [Option.getD_some]
    rcases h with h | h | h
    · rw [h]
    · cases hpl : pf la with
      | none => rfl
      | some ln => rw [h]
    · cases hpl : pf la with
      | none => rfl
      | some ln =>
        cases hpo : pf lo with
        | none => rfl
        | some lon2 => rw [h]
  · intro ln lon2 rn hln hlon hrn
    unfold handleBloomData
    rw [if_neg (by rw [hc]; simp)]
    rw [hl, ho, hr, hsd, hed]
    simp only [Option.getD_some]
    rw [hln, hlon, hrn]
    cases hgen : generateBloomData g ln lon2 rn sd ed <;> simp [Except.map, hgen]

/-- C8 witness: both directions at concrete requests (an unparseable `lat`
value `abc`, then fully numeric parameters). -/
theorem invalid_geo_400_wit :
    (handleBloomData zeroRng (fun x => if x = "abc" then none else some 0)
        ⟨some "abc", some "0", some "1", some "2025-03-01", some "2025-05-31"⟩ =
      .ok (400, .err invalidGeoMsg)) ∧
    (handleBloomData zeroRng (fun x => if x = "abc" then none else some 0)
        ⟨some "5", some "0", some "1", some "2025-03-01", some "2025-05-31"⟩ =
      (generateBloomData zeroRng 0 0 0 "2025-03-01" "2025-05-31").map
        (fun fc => (200, Body.json fc))) :=
  ⟨(invalid_geo_400 zeroRng (fun x => if x = "abc" then none else some 0)
      ⟨some "abc", some "0", some "1", some "2025-03-01", some "2025-05-31"⟩
      "abc" "0" "1" "2025-03-01" "2025-05-31" rfl rfl rfl rfl rfl
      (by decide) (by decide) (by decide) (by decide) (by decide)).1
      (Or.inl (by simp)),
    (invalid_geo_400 zeroRng (fun x => if x = "abc" then none else some 0)
      ⟨some "5", some "0", some "1", some "2025-03-01", some "2025-05-31"⟩
      "5" "0" "1" "2025-03-01" "2025-05-31" rfl rfl rfl rfl rfl
      (by decide) (by decide) (by decide) (by decide) (by decide)).2
      0 0 0 (by simp) (by simp) (by simp)⟩

/-- C10: a parameter that is present with an empty-string value is treated
exactly like an absent one — the handler's truthiness test rejects it with the
missing-parameter response. -/
theorem empty_param_treated_missing (g : Rng) (pf : String → Option ℚ) (q : Query)
    (h : q.lat = some "" ∨ q.lon = some "" ∨ q.radius = some "" ∨
      q.startDate = some "" ∨ q.endDate = some "") :
    handleBloomData g pf q = .ok (400, .err missingMsg) := by
  unfold handleBloomData
  have hc : (!truthy q.lat || !truthy q.lon || !truthy q.radius ||
      !truthy q.startDate || !truthy q.endDate) = true := by
    rcases h with h | h | h | h | h <;> rw [h] <;> simp [truthy]
  rw [if_pos hc]

/-- C10 witness: a concrete request with `lat` present but empty. -/
theorem empty_param_treated_missing_wit :
    handleBloomData zeroRng (fun _ => none)
      ⟨some "", some "0", some "1", some "2025-03-01", some "2025-05-31"⟩ =
      .ok (400, .err missingMsg) :=
  empty_param_treated_missing zeroRng (fun _ => none)
    ⟨some "", some "0", some "1", some "2025-03-01", some "2025-05-31"⟩ (Or.inl rfl)
